import Mathlib

/-!
Shallow embedding of the MuseFlow backend request-orchestration and
result-caching layer (cache store, provider orchestrator, action handlers,
message router), translated from the TypeScript sources:
`src/backend/storage/cache.ts`, `src/backend/utils/chromeWrapper.ts`,
`src/backend/ai/summarize.ts`, `src/backend/ai/ideate.ts`,
`src/backend/core/messageRouter.ts`, `src/backend/core/config.ts`.

Modelling conventions:
* JS numbers holding timestamps are `Int` (milliseconds); float ratios and
  scores are `ℚ` (the sources only add and divide small decimals).
* `chrome.storage.local` is an association list `List (String × CacheEntry)`
  with object semantics (unique keys: set replaces in place or appends,
  remove filters the key out).
* Every `chrome.storage.local` primitive call (`get`, `set`, `remove`) may
  throw; a `World` carries a schedule `faults : List Bool` consumed one entry
  per primitive call (exhausted schedule = no fault), so the `try`/`catch`
  structure of the source is translated explicitly.
* Every `Date.now()` / `new Date()` whose value flows into program state
  reads the next element of `clocks : List Int`.  ISO rendering of instants
  is kept as the `Int` instant.  Logging is observably irrelevant to all
  claims and is elided (the logger only appends to its own buffers).
* `getConfig()` never throws (it catches storage errors and returns the
  defaults), so configuration is passed as a pure `Config` value.
* Upstream providers (`fetch`-based OpenAI/Gemini calls, the Chrome AI API)
  are external collaborators; they are modelled as functions returning
  `Except String AIResponse` (`.error` = the JS call threw).
* Strings are sequences of Unicode scalars (`String.data`); the inputs in
  all claims are ASCII, where this coincides with JS UTF-16 indexing.
-/

deriving instance DecidableEq for Except

namespace MuseFlow

/-- JS `ToInt32`: wrap an integer into the signed 32-bit range
(2147483648 = 2³¹, 4294967296 = 2³²; literals keep kernel reduction fast). -/
def toInt32 (x : Int) : Int := (x + 2147483648) % 4294967296 - 2147483648

/-- One step of the rolling hash in `CacheManager.generateHash`:
`hash = ((hash << 5) - hash) + char; hash = hash & hash`.  In JS, `<< 5`
wraps to 32 bits, the subtraction and addition are exact in float64, and
`hash & hash` wraps the result to 32 bits again. -/
def hashStep (hash : Int) (c : Char) : Int :=
  toInt32 (toInt32 (hash * 32) - hash + (c.toNat : Int))

/-- Base-36 digit as used by JS `Number.prototype.toString(36)`. -/
def digitChar36 (n : Nat) : Char :=
  if n < 10 then Char.ofNat (48 + n) else Char.ofNat (87 + n)

/-- Fuel-driven base-36 digit expansion (fuel `n+1` always suffices). -/
def natToDigits36Aux : Nat → Nat → List Char → List Char
  | 0, _, acc => acc
  | fuel + 1, n, acc =>
    if n < 36 then digitChar36 n :: acc
    else natToDigits36Aux fuel (n / 36) (digitChar36 (n % 36) :: acc)

def natToDigits36 (n : Nat) : List Char := natToDigits36Aux (n + 1) n []

/-- JS `Number.prototype.toString(36)` on a 32-bit integer value. -/
def intToString36 (i : Int) : String :=
  if i < 0 then "-" ++ String.mk (natToDigits36 i.natAbs)
  else String.mk (natToDigits36 i.toNat)

/-- `CacheManager.generateHash(text, action)`: rolling 32-bit hash of
`` `${action}:${text}` `` rendered in base 36.  Note the argument order of
the source (text first) and that options are not an input. -/
def generateHash (text action : String) : String :=
  let combined := action ++ ":" ++ text
  intToString36 (combined.data.foldl hashStep 0)

/-- Cache key `` `cache_${inputHash}` `` computed by the cache manager. -/
def mkCacheKey (text action : String) : String :=
  "cache_" ++ generateHash text action

/-- Does the character list `pat` lead (begin) the character list `s`? -/
def leads : List Char → List Char → Bool
  | [], _ => true
  | _ :: _, [] => false
  | a :: pa, b :: pb => a == b && leads pa pb

/-- JS `String.prototype.startsWith`. -/
def jsStartsWith (s pat : String) : Bool := leads pat.data s.data

/-- Does `pat` occur somewhere in `s` (JS `String.prototype.includes`)? -/
def occurs (pat : List Char) : List Char → Bool
  | [] => leads pat []
  | c :: rest => leads pat (c :: rest) || occurs pat rest

/-- JS `String.prototype.includes`. -/
def jsIncludes (s pat : String) : Bool := occurs pat.data s.data

/-- JS whitespace characters relevant here (space, tab, LF, CR). -/
def isSpaceChar (c : Char) : Bool :=
  c == ' ' || c == '\t' || c == '\n' || c == '\r'

/-- JS `String.prototype.trim`. -/
def jsTrim (s : String) : String :=
  String.mk (((s.data.dropWhile isSpaceChar).reverse.dropWhile isSpaceChar).reverse)

/-- ASCII lowercase of one character (JS `toLowerCase` on the ASCII inputs
appearing in this code base). -/
def lowerChar (c : Char) : Char :=
  if 'A' ≤ c ∧ c ≤ 'Z' then Char.ofNat (c.toNat + 32) else c

/-- JS `String.prototype.toLowerCase` (ASCII). -/
def jsToLower (s : String) : String := String.mk (s.data.map lowerChar)

/-- JS `String.prototype.substring(a, b)` (on scalar positions). -/
def jsSubstring (s : String) (a b : Nat) : String :=
  String.mk ((s.data.drop a).take (b - a))

/-- JS `Array.prototype.join(sep)`. -/
def jsJoin (sep : String) : List String → String
  | [] => ""
  | [x] => x
  | x :: rest => x ++ sep ++ jsJoin sep rest

/-- Split a character list at every occurrence of a character satisfying
`p` (consecutive separators produce empty pieces, which every caller in the
source filters away). -/
def splitAtChars (p : Char → Bool) : List Char → List (List Char)
  | [] => [[]]
  | c :: rest =>
    let r := splitAtChars p rest
    if p c then [] :: r
    else match r with
      | [] => [[c]]
      | piece :: more => (c :: piece) :: more

/-- JS `String.prototype.split("\n")`. -/
def jsSplitLines (s : String) : List String :=
  (splitAtChars (· == '\n') s.data).map String.mk

/-! ### Data model (`chromeWrapper.ts`, `cache.ts`, `config.ts`) -/

/-- `AIResponse` from `chromeWrapper.ts`. -/
structure AIResponse where
  text : String
  model : Option String
  provider : String
  timestamp : String
  tokensUsed : Option Nat
deriving DecidableEq, Repr

/-- `CacheEntry` from `cache.ts`. -/
structure CacheEntry where
  id : String
  inputText : String
  response : AIResponse
  timestamp : Int
  ttl : Int
  action : String
  inputHash : String
deriving DecidableEq, Repr

/-- `CacheStats` from `cache.ts`; `hitRate` is a JS float, modelled in `ℚ`. -/
structure CacheStats where
  totalEntries : Nat
  hits : Nat
  misses : Nat
  hitRate : ℚ
  oldestEntry : Int
  newestEntry : Int
deriving DecidableEq, Repr

/-- `Config.ai.provider` from `config.ts`. -/
inductive ProviderKind | chrome | openai | gemini
deriving DecidableEq, Repr

/-- OpenAI section of `Config.ai` (`apiKey?: string` defaults to `""`,
which is falsy in the guards below). -/
structure OpenAIConf where
  apiKey : String
  model : String
  baseUrl : String
deriving DecidableEq, Repr

structure ChromeConf where
  model : String
deriving DecidableEq, Repr

structure GeminiConf where
  apiKey : String
  model : String
deriving DecidableEq, Repr

structure AIConf where
  provider : ProviderKind
  openai : OpenAIConf
  chrome : ChromeConf
  gemini : GeminiConf
deriving DecidableEq, Repr

structure LimitsConf where
  maxTextLength : Nat
  maxCacheEntries : Nat
  cacheTtl : Int
deriving DecidableEq, Repr

structure FeaturesConf where
  enableCaching : Bool
  enableLogging : Bool
  enableFallback : Bool
deriving DecidableEq, Repr

/-- `Config` from `config.ts`. -/
structure Config where
  ai : AIConf
  limits : LimitsConf
  features : FeaturesConf
deriving DecidableEq, Repr

/-- `defaultConfig` from `config.ts` (environment API keys default `""`). -/
def defaultConfig : Config :=
  { ai := { provider := .chrome
          , openai := { apiKey := "", model := "gpt-3.5-turbo", baseUrl := "https://api.openai.com/v1" }
          , chrome := { model := "gemini-pro" }
          , gemini := { apiKey := "", model := "gemini-pro" } }
  , limits := { maxTextLength := 5000, maxCacheEntries := 100, cacheTtl := 24 * 60 * 60 * 1000 }
  , features := { enableCaching := true, enableLogging := true, enableFallback := true } }

/-! ### The world state threaded through the stateful code

`store` is `chrome.storage.local`, `stats` the in-memory `CacheManager`
statistics, `clocks` the pending `Date.now()` readings, and `faults` the
schedule deciding whether each successive storage primitive call throws. -/

structure World where
  store : List (String × CacheEntry)
  stats : CacheStats
  clocks : List Int
  faults : List Bool
deriving DecidableEq, Repr

/-- Read the next `Date.now()` value (an exhausted oracle reads 0). -/
def tickClock (w : World) : Int × World :=
  (w.clocks.headD 0, { w with clocks := w.clocks.tail })

/-- Consume one entry of the storage fault schedule; `true` means the
current `chrome.storage.local` primitive call throws (an exhausted schedule
means no further faults). -/
def tickFault (w : World) : Bool × World :=
  (w.faults.headD false, { w with faults := w.faults.tail })

/-- Object-map lookup in the modelled `chrome.storage.local`. -/
def lookupKey (k : String) : List (String × CacheEntry) → Option CacheEntry
  | [] => none
  | (k', v) :: rest => if k' = k then some v else lookupKey k rest

/-- Object-map assignment: replace in place, or append a fresh key. -/
def setKey (k : String) (v : CacheEntry) (s : List (String × CacheEntry)) :
    List (String × CacheEntry) :=
  if s.any (fun p => p.1 == k) then
    s.map (fun p => if p.1 == k then (k, v) else p)
  else s ++ [(k, v)]

/-! ### CacheManager (`cache.ts`) -/

/-- Insert into a list sorted by the boolean comparison `le` (used to model
`Array.prototype.sort` with the timestamp comparators of the source; the
order among equal timestamps is irrelevant to every claim proved below). -/
def insertSorted (le : CacheEntry → CacheEntry → Bool) (a : CacheEntry) :
    List CacheEntry → List CacheEntry
  | [] => [a]
  | b :: l => if le a b then a :: b :: l else b :: insertSorted le a l

def sortEntries (le : CacheEntry → CacheEntry → Bool) : List CacheEntry → List CacheEntry
  | [] => []
  | a :: l => insertSorted le a (sortEntries le l)

/-- Comparator `(a, b) => a.timestamp - b.timestamp` (ascending). -/
def byTsAsc (a b : CacheEntry) : Bool := a.timestamp ≤ b.timestamp

/-- Comparator `(a, b) => b.timestamp - a.timestamp` (descending). -/
def byTsDesc (a b : CacheEntry) : Bool := b.timestamp ≤ a.timestamp

/-- `CacheManager.updateHitRate`. -/
def updateHitRate (s : CacheStats) : CacheStats :=
  let total := s.hits + s.misses
  { s with hitRate := if total > 0 then (s.hits : ℚ) / (total : ℚ) else 0 }

/-- Record a miss: `this.stats.misses++; this.updateHitRate();`. -/
def bumpMiss (w : World) : World :=
  { w with stats := updateHitRate { w.stats with misses := w.stats.misses + 1 } }

/-- Record a hit: `this.stats.hits++; this.updateHitRate();`. -/
def bumpHit (w : World) : World :=
  { w with stats := updateHitRate { w.stats with hits := w.stats.hits + 1 } }

/-- `CacheManager.getAllCacheEntries`: enumerate `chrome.storage.local`
(one storage call), keep the `cache_`-keyed records, sort by timestamp
descending; on a storage error return `[]`. -/
def getAllCacheEntries (w : World) : List CacheEntry × World :=
  let (fail, w) := tickFault w
  if fail then ([], w)
  else
    (sortEntries byTsDesc ((w.store.filter (fun p => jsStartsWith p.1 "cache_")).map (fun p => p.2)), w)

/-- `CacheManager.updateStats`: recompute `oldestEntry`/`newestEntry` from a
fresh enumeration (0/0 when empty, also when the enumeration itself failed). -/
def updateStats (w : World) : World :=
  let (entries, w) := getAllCacheEntries w
  match entries with
  | [] => { w with stats := { w.stats with oldestEntry := 0, newestEntry := 0 } }
  | e :: rest =>
    { w with stats :=
      { w.stats with
        oldestEntry := rest.foldl (fun m x => min m x.timestamp) e.timestamp
        newestEntry := rest.foldl (fun m x => max m x.timestamp) e.timestamp } }

/-- `CacheManager.removeCacheEntry`: one `storage.remove` call; on success
decrement `totalEntries` (clamped at 0) and refresh stats; on failure only
log (no state change). -/
def removeCacheEntry (cacheKey : String) (w : World) : World :=
  let (fail, w) := tickFault w
  if fail then w
  else
    let w := { w with store := w.store.filter (fun p => p.1 != cacheKey) }
    let w := { w with stats := { w.stats with totalEntries := w.stats.totalEntries - 1 } }
    updateStats w

/-- `CacheManager.getCacheEntry(inputText, action)`: the cache lookup.
Exported as `getCachedResponse`; call sites pass a third `options` argument
that the two-parameter function ignores. -/
def getCacheEntry (cfg : Config) (inputText action : String) (w : World) :
    Option AIResponse × World :=
  if !cfg.features.enableCaching then
    (none, bumpMiss w)
  else
    let cacheKey := mkCacheKey inputText action
    let (fail, w) := tickFault w
    if fail then (none, bumpMiss w)
    else
      match lookupKey cacheKey w.store with
      | none => (none, bumpMiss w)
      | some entry =>
        let (now, w) := tickClock w
        if entry.timestamp + entry.ttl < now then
          let w := removeCacheEntry cacheKey w
          (none, bumpMiss w)
        else
          (some entry.response, bumpHit w)

/-- `CacheManager.cleanupOldEntries`: when the enumeration exceeds
`limits.maxCacheEntries`, sort ascending by timestamp and remove the oldest
excess keys in one `storage.remove` call; storage errors only log. -/
def cleanupOldEntries (cfg : Config) (w : World) : World :=
  let (entries, w) := getAllCacheEntries w
  if entries.length ≤ cfg.limits.maxCacheEntries then w
  else
    let sorted := sortEntries byTsAsc entries
    let entriesToRemove := sorted.take (entries.length - cfg.limits.maxCacheEntries)
    let keysToRemove := entriesToRemove.map (fun e => e.id)
    let (fail, w) := tickFault w
    if fail then w
    else
      let w := { w with store := w.store.filter (fun p => !(keysToRemove.contains p.1)) }
      let w := { w with stats := { w.stats with totalEntries := entries.length - entriesToRemove.length } }
      updateStats w

/-- `CacheManager.saveToCache(action, inputText, response)`: no-op when
caching is disabled; otherwise build the entry (`timestamp: Date.now()`),
write it with one `storage.set` call, bump `totalEntries`, refresh stats and
clean up; any storage error is caught and only logged. -/
def saveToCache (cfg : Config) (action inputText : String) (response : AIResponse)
    (w : World) : World :=
  if !cfg.features.enableCaching then w
  else
    let inputHash := generateHash inputText action
    let cacheKey := "cache_" ++ inputHash
    let (now, w) := tickClock w
    let entry : CacheEntry :=
      { id := cacheKey, inputText := inputText, response := response
      , timestamp := now, ttl := cfg.limits.cacheTtl, action := action, inputHash := inputHash }
    let (fail, w) := tickFault w
    if fail then w
    else
      let w := { w with store := setKey cacheKey entry w.store }
      let w := { w with stats := { w.stats with totalEntries := w.stats.totalEntries + 1 } }
      let w := updateStats w
      cleanupOldEntries cfg w

/-- Tail of `CacheManager.clearCache` after the removals: reset the
counters and refresh stats. -/
def finishClear (w : World) : World :=
  let w := { w with stats :=
    { w.stats with totalEntries := 0, hits := 0, misses := 0, hitRate := 0 } }
  updateStats w

/-- `CacheManager.clearCache`: enumerate (one storage call), remove all
`cache_` keys (one more storage call when any exist), then reset counters;
a storage error aborts the rest of the `try` block and only logs. -/
def clearCache (w : World) : World :=
  let (fail, w) := tickFault w
  if fail then w
  else
    let cacheKeys := (w.store.filter (fun p => jsStartsWith p.1 "cache_")).map (fun p => p.1)
    if cacheKeys.length > 0 then
      let (fail2, w) := tickFault w
      if fail2 then w
      else
        let w := { w with store := w.store.filter (fun p => !(cacheKeys.contains p.1)) }
        finishClear w
    else finishClear w

/-! ### Provider orchestrator (`chromeWrapper.ts`) -/

/-- `AIRequest` from `chromeWrapper.ts`; `temperature` as `ℚ`. -/
structure AIRequest where
  prompt : String
  model : Option String
  maxTokens : Option Nat
  temperature : Option ℚ
deriving DecidableEq, Repr

/-- The provider collaborators of `chromeWrapper.ts`.  `chromeAIAvailable`
models the `chrome.ai` presence test; each call either returns a response or
throws (`.error`).  `chromeSummarizeAPI` models `callChromeAISummarize`,
imported by `summarize.ts`; its body is not part of the sources, so it is
kept as the provider-contract collaborator of §6 of the design (an async
function of the input that returns text or throws). -/
structure Providers where
  chromeAIAvailable : Bool
  chromeAPI : AIRequest → String → Except String AIResponse
  openaiAPI : AIRequest → OpenAIConf → Except String AIResponse
  geminiAPI : AIRequest → GeminiConf → Except String AIResponse
  chromeSummarizeAPI : String → String → Except String AIResponse

/-- `callChromeAI` from `chromeWrapper.ts`.  The `try`/`catch` around the
body logs any thrown error and rethrows it unchanged, so the function is
exactly the guarded chain: attempt Chrome AI when it is the configured
provider and `chrome.ai` exists; otherwise fall through to OpenAI and then
Gemini when fallback is enabled and an API key is set; otherwise throw
`"No AI provider available"`.  An error thrown by an attempted provider
propagates (each branch `return`s or throws). -/
def callChromeAI (cfg : Config) (pv : Providers) (request : AIRequest) :
    Except String AIResponse :=
  if cfg.ai.provider == .chrome && pv.chromeAIAvailable then
    pv.chromeAPI request cfg.ai.chrome.model
  else if cfg.features.enableFallback && cfg.ai.openai.apiKey != "" then
    pv.openaiAPI request cfg.ai.openai
  else if cfg.features.enableFallback && cfg.ai.gemini.apiKey != "" then
    pv.geminiAPI request cfg.ai.gemini
  else
    .error "No AI provider available"

/-! ### Options and the summarize handler (`summarize.ts`) -/

/-- Request options: the JS `options` object is structural, so one record
carries the union of the fields read by `PromptOptions`,
`SummarizeOptions` and `IdeateOptions`; an absent (or `undefined`) field is
`none`. -/
structure Options where
  targetLanguage : Option String
  tone : Option String
  summaryLength : Option String
  context : Option String
  includeKeyPoints : Option Bool
  focusAreas : Option (List String)
  ideaCount : Option Nat
  ideaType : Option String
  domain : Option String
  constraints : Option (List String)
  audience : Option String
  timeframe : Option String
deriving DecidableEq, Repr

/-- The empty options object `{}`. -/
def noOptions : Options :=
  { targetLanguage := none, tone := none, summaryLength := none, context := none
  , includeKeyPoints := none, focusAreas := none, ideaCount := none, ideaType := none
  , domain := none, constraints := none, audience := none, timeframe := none }

/-- `{...defaultOptions, ...options}` where `defaultOptions` is
`getDefaultPromptOptions()` (an object with exactly the keys
`targetLanguage`, `tone`, `summaryLength` taken from the settings state). -/
def mergePromptOptions (defaults options : Options) : Options :=
  { options with
    targetLanguage := options.targetLanguage <|> defaults.targetLanguage
    tone := options.tone <|> defaults.tone
    summaryLength := options.summaryLength <|> defaults.summaryLength }

/-- `getLengthInstruction` from `summarize.ts`. -/
def getLengthInstruction (summaryLength : String) : String :=
  if summaryLength = "short" then "Provide a concise summary (1-2 sentences)."
  else if summaryLength = "long" then "Provide a comprehensive summary with key details and context."
  else "Provide a balanced summary (3-5 sentences)."

/-- `getMaxTokensForLength` from `summarize.ts`. -/
def getMaxTokensForLength (summaryLength : String) : Nat :=
  if summaryLength = "short" then 150
  else if summaryLength = "long" then 500
  else 300

/-- `buildSummarizePrompt` local to `summarize.ts` (not the one in
`promptBuilder.ts`, which no handler calls). -/
def buildSummarizePrompt (text : String) (options : Options) : String :=
  let lengthInstruction := getLengthInstruction (options.summaryLength.getD "medium")
  let keyPointsInstruction :=
    if options.includeKeyPoints.getD false then " Also provide key points as a bulleted list." else ""
  let focusInstruction :=
    match options.focusAreas with
    | some areas => if areas.length > 0 then " Focus specifically on: " ++ jsJoin ", " areas ++ "." else ""
    | none => ""
  "Summarize the following text clearly and concisely.\n\nINSTRUCTIONS:\n"
    ++ lengthInstruction ++ keyPointsInstruction ++ focusInstruction
    ++ "\nFocus on the main points and key information while maintaining accuracy and clarity.\nRemove redundant information and present the core message effectively.\n\nTEXT TO SUMMARIZE:\n"
    ++ text
    ++ "\n\nPlease provide a well-structured summary that captures the essential information."

/-- Consume `\d+\.` at the head of a character list, if present. -/
def chopNumDot (l : List Char) : Option (List Char) :=
  let ds := l.takeWhile (fun c => c.isDigit)
  let rest := l.dropWhile (fun c => c.isDigit)
  if ds.isEmpty then none
  else match rest with
    | '.' :: r => some r
    | _ => none

/-- Test of the regex `/^\d+\./`. -/
def startsNumDot (l : List Char) : Bool := (chopNumDot l).isSome

/-- The replacement `trimmed.replace(/^[•\-*◦]|\d+\./, "")` used by
`extractKeyPoints`: the first alternative is anchored at the start, the
second (`\d+\.`) matches at the first position where it occurs. -/
def stripBulletMark (l : List Char) : List Char :=
  match l with
  | [] => []
  | c :: rest =>
    if c == '•' || c == '-' || c == '*' || c == '◦' then rest
    else
      let rec firstNumDot : List Char → List Char
        | [] => []
        | d :: more =>
          match chopNumDot (d :: more) with
          | some r => r
          | none => d :: firstNumDot more
      firstNumDot (c :: rest)

/-- `extractKeyPoints` from `summarize.ts`. -/
def extractKeyPoints (response : String) : List String :=
  (jsSplitLines response).foldl
    (fun acc line =>
      let trimmed := jsTrim line
      let td := trimmed.data
      if (match td with
          | c :: _ => c == '•' || c == '-' || c == '*' || c == '◦'
          | [] => false) || startsNumDot td then
        let point := jsTrim (String.mk (stripBulletMark td))
        if point.length > 0 then acc ++ [point] else acc
      else acc)
    []

/-- `calculateConfidence` from `summarize.ts` (float arithmetic in `ℚ`). -/
def calculateConfidence (response : String) : ℚ :=
  let confidence : ℚ := 1/2
  let confidence :=
    if 50 ≤ response.length ∧ response.length ≤ 1000 then confidence + 1/5 else confidence
  let sentences :=
    ((splitAtChars (fun c => c == '.' || c == '!' || c == '?') response.data).map String.mk).filter
      (fun s => (jsTrim s).length > 0)
  let confidence :=
    if 2 ≤ sentences.length ∧ sentences.length ≤ 10 then confidence + 1/5 else confidence
  let confidence :=
    if jsIncludes response "The" || jsIncludes response "This" || jsIncludes response "It" then
      confidence + 1/10
    else confidence
  min 1 confidence

/-- Result of `parseSummarizeResponse` (the `Omit<SummarizeResult, "metadata">`). -/
structure SummarizeCore where
  summary : String
  keyPoints : Option (List String)
  confidence : Option ℚ
deriving DecidableEq, Repr

/-- `parseSummarizeResponse` from `summarize.ts`. -/
def parseSummarizeResponse (response : String) (options : Options) :
    Except String SummarizeCore :=
  let cleanResponse := jsTrim response
  if cleanResponse = "" then .error "Empty response from AI service"
  else
    let keyPoints :=
      if options.includeKeyPoints.getD false then
        let kp := extractKeyPoints cleanResponse
        if kp.length > 0 then some kp else none
      else none
    .ok { summary := cleanResponse, keyPoints := keyPoints
        , confidence := some (calculateConfidence cleanResponse) }

structure SummarizeMeta where
  originalLength : Nat
  summaryLength : Nat
  compressionRatio : ℚ
  processingTime : Int
deriving DecidableEq, Repr

/-- `SummarizeResult` from `summarize.ts`. -/
structure SummarizeResult where
  summary : String
  keyPoints : Option (List String)
  confidence : Option ℚ
  metadata : SummarizeMeta
deriving DecidableEq, Repr

/-- `handleSummarize` from `summarize.ts`: cache lookup first (the extra
`options` argument at the call site is dropped by the two-parameter cache
API); then option merge, the empty-text check, truncation of texts longer
than 5000 characters with a `"..."` marker, prompt build, the
`callChromeAISummarize` attempt with `callChromeAI` as recovery, response
parsing, metadata, and the cache write (again with the options argument
dropped).  The outer `catch` logs and rethrows, i.e. propagates `.error`. -/
def handleSummarize (cfg : Config) (pv : Providers) (defaults : Options)
    (text0 : String) (options : Options) (w : World) :
    Except String SummarizeResult × World :=
  let (startTime, w) := tickClock w
  let (cached, w) := getCacheEntry cfg text0 "summarize" w
  match cached with
  | some cachedResponse =>
    let (t1, w) := tickClock w
    (.ok { summary := cachedResponse.text, keyPoints := none, confidence := none
         , metadata :=
           { originalLength := text0.length
           , summaryLength := cachedResponse.text.length
           , compressionRatio := (cachedResponse.text.length : ℚ) / (text0.length : ℚ)
           , processingTime := t1 - startTime } }, w)
  | none =>
    let finalOptions := mergePromptOptions defaults options
    if text0 = "" || (jsTrim text0).length = 0 then
      (.error "Input text cannot be empty", w)
    else
      let text := if text0.length > 5000 then jsSubstring text0 0 5000 ++ "..." else text0
      let prompt := buildSummarizePrompt text finalOptions
      let aiRequest : AIRequest :=
        { prompt := prompt, model := none
        , maxTokens := some (getMaxTokensForLength (finalOptions.summaryLength.getD "medium"))
        , temperature := some (3/10) }
      let aiResponseE :=
        match pv.chromeSummarizeAPI text (finalOptions.summaryLength.getD "medium") with
        | .ok r => Except.ok r
        | .error _ => callChromeAI cfg pv aiRequest
      match aiResponseE with
      | .error e => (.error e, w)
      | .ok aiResponse =>
        match parseSummarizeResponse aiResponse.text finalOptions with
        | .error e => (.error e, w)
        | .ok core =>
          let (t2, w) := tickClock w
          let finalResult : SummarizeResult :=
            { summary := core.summary, keyPoints := core.keyPoints, confidence := core.confidence
            , metadata :=
              { originalLength := text.length
              , summaryLength := core.summary.length
              , compressionRatio := (core.summary.length : ℚ) / (text.length : ℚ)
              , processingTime := t2 - startTime } }
          let w := saveToCache cfg "summarize" text aiResponse w
          (.ok finalResult, w)

/-! ### Ideate handler (`ideate.ts`) -/

/-- An `Idea` after the final defaulting pass of `parseIdeasFromResponse`. -/
structure IdeaRec where
  title : String
  description : String
  implementation : List String
  benefits : List String
  challenges : List String
  effortLevel : String
  impactLevel : String
deriving DecidableEq, Repr

/-- A `Partial<Idea>` as accumulated while scanning the response lines. -/
structure IdeaDraft where
  title : Option String
  description : Option String
  implementation : Option (List String)
  benefits : Option (List String)
  challenges : Option (List String)
  effortLevel : Option String
  impactLevel : Option String
deriving DecidableEq, Repr

def emptyDraft : IdeaDraft :=
  { title := none, description := none, implementation := none, benefits := none
  , challenges := none, effortLevel := none, impactLevel := none }

/-- Test of `/^idea\s+\d+/i`. -/
def startsIdeaNum (l : List Char) : Bool :=
  match l.map lowerChar with
  | 'i' :: 'd' :: 'e' :: 'a' :: rest =>
    let ws := rest.takeWhile isSpaceChar
    let rest2 := rest.dropWhile isSpaceChar
    !ws.isEmpty && (match rest2 with
      | c :: _ => c.isDigit
      | [] => false)
  | _ => false

/-- `line.replace(/^\d+\.\s*/, "")`. -/
def stripNumDotWs (l : List Char) : List Char :=
  match chopNumDot l with
  | some r => r.dropWhile isSpaceChar
  | none => l

/-- `line.replace(/^idea\s+\d+:\s*/i, "")` (applied to the original-case
characters, matched case-insensitively). -/
def stripIdeaNumColonWs (l : List Char) : List Char :=
  match l with
  | a :: b :: c :: d :: rest =>
    if [a, b, c, d].map lowerChar == ['i', 'd', 'e', 'a'] then
      let ws := rest.takeWhile isSpaceChar
      let rest2 := rest.dropWhile isSpaceChar
      if ws.isEmpty then l
      else
        let ds := rest2.takeWhile (fun ch => ch.isDigit)
        let rest3 := rest2.dropWhile (fun ch => ch.isDigit)
        if ds.isEmpty then l
        else match rest3 with
          | ':' :: r => r.dropWhile isSpaceChar
          | _ => l
    else l
  | _ => l

/-- `line.replace(/^[-•*]\s*/, "")` used for list items. -/
def stripListMark (l : List Char) : List Char :=
  match l with
  | c :: rest =>
    if c == '-' || c == '•' || c == '*' then rest.dropWhile isSpaceChar else l
  | [] => l

/-- One iteration of the line loop of `parseIdeasFromResponse`; the state is
(accumulated complete ideas, current draft, current section name). -/
def ideaLineStep (st : List IdeaDraft × IdeaDraft × String) (rawLine : String) :
    List IdeaDraft × IdeaDraft × String :=
  let (ideas, currentIdea, currentSection) := st
  let line := jsTrim rawLine
  if line = "" then st
  else if startsNumDot line.data || startsIdeaNum line.data then
    let ideas := match currentIdea.title with
      | some _ => ideas ++ [currentIdea]
      | none => ideas
    let title := String.mk (stripIdeaNumColonWs (stripNumDotWs line.data))
    (ideas, { emptyDraft with title := some title }, "")
  else
    let low := jsToLower line
    if jsIncludes low "description" || jsIncludes low "explanation" then
      (ideas, currentIdea, "description")
    else if jsIncludes low "implementation" || jsIncludes low "steps" then
      (ideas, currentIdea, "implementation")
    else if jsIncludes low "benefits" || jsIncludes low "advantages" then
      (ideas, currentIdea, "benefits")
    else if jsIncludes low "challenges" || jsIncludes low "difficulties" then
      (ideas, currentIdea, "challenges")
    else if jsIncludes low "effort" || jsIncludes low "difficulty" then
      (ideas, currentIdea, "effort")
    else if jsIncludes low "impact" || jsIncludes low "effect" then
      (ideas, currentIdea, "impact")
    else if currentSection = "description" then
      let desc := some (currentIdea.description.getD "" ++ " " ++ line)
      (ideas, { currentIdea with description := desc }, currentSection)
    else if currentSection = "implementation" then
      let items := some (currentIdea.implementation.getD [] ++ [String.mk (stripListMark line.data)])
      (ideas, { currentIdea with implementation := items }, currentSection)
    else if currentSection = "benefits" then
      let items := some (currentIdea.benefits.getD [] ++ [String.mk (stripListMark line.data)])
      (ideas, { currentIdea with benefits := items }, currentSection)
    else if currentSection = "challenges" then
      let items := some (currentIdea.challenges.getD [] ++ [String.mk (stripListMark line.data)])
      (ideas, { currentIdea with challenges := items }, currentSection)
    else if currentSection = "effort" then
      let effortLevel := jsToLower line
      let level := if jsIncludes effortLevel "low" then "low"
        else if jsIncludes effortLevel "high" then "high" else "medium"
      (ideas, { currentIdea with effortLevel := some level }, currentSection)
    else if currentSection = "impact" then
      let impactLevel := jsToLower line
      let level := if jsIncludes impactLevel "low" then "low"
        else if jsIncludes impactLevel "high" then "high" else "medium"
      (ideas, { currentIdea with impactLevel := some level }, currentSection)
    else st

/-- Final defaulting pass of `parseIdeasFromResponse`
(`idea.title?.trim() || "Untitled Idea"`, etc.). -/
def finishIdea (d : IdeaDraft) : IdeaRec :=
  let t := jsTrim (d.title.getD "")
  let desc := jsTrim (d.description.getD "")
  { title := if t = "" then "Untitled Idea" else t
  , description := if desc = "" then "No description provided" else desc
  , implementation := d.implementation.getD []
  , benefits := d.benefits.getD []
  , challenges := d.challenges.getD []
  , effortLevel := d.effortLevel.getD "medium"
  , impactLevel := d.impactLevel.getD "medium" }

/-- `parseIdeasFromResponse` from `ideate.ts`. -/
def parseIdeasFromResponse (response : String) : List IdeaRec :=
  let (ideas, currentIdea, _) :=
    (jsSplitLines response).foldl ideaLineStep ([], emptyDraft, "")
  let ideas := match currentIdea.title with
    | some _ => ideas ++ [currentIdea]
    | none => ideas
  ideas.map finishIdea

/-- `getIdeaTypeInstruction` from `ideate.ts`. -/
def getIdeaTypeInstruction (ideaType : String) : String :=
  if ideaType = "creative" then " Focus on highly creative, innovative, and out-of-the-box ideas."
  else if ideaType = "practical" then " Focus on practical, implementable ideas with clear benefits."
  else if ideaType = "strategic" then " Focus on strategic, long-term thinking and planning ideas."
  else if ideaType = "innovative" then " Focus on breakthrough innovations and novel approaches."
  else " Provide a mix of creative, practical, and strategic ideas."

/-- `buildIdeatePrompt` local to `ideate.ts`. -/
def buildIdeatePrompt (text : String) (options : Options) : String :=
  let ideaCount := options.ideaCount.getD 5
  let ideaTypeInstruction := getIdeaTypeInstruction (options.ideaType.getD "mixed")
  let domainInstruction :=
    match options.domain with
    | some d => " Focus on ideas relevant to the " ++ d ++ " domain."
    | none => ""
  let focusInstruction :=
    match options.focusAreas with
    | some areas => if areas.length > 0 then " Pay special attention to: " ++ jsJoin ", " areas ++ "." else ""
    | none => ""
  let constraintsInstruction :=
    match options.constraints with
    | some cs => if cs.length > 0 then " Consider these constraints: " ++ jsJoin ", " cs ++ "." else ""
    | none => ""
  let audienceInstruction :=
    match options.audience with
    | some aud => " Tailor ideas for a " ++ aud ++ " audience."
    | none => ""
  let timeframeInstruction :=
    match options.timeframe with
    | some tf => " Focus on " ++ tf ++ "-term implementation ideas."
    | none => ""
  "Generate creative, innovative ideas based on the following text. Think outside the box and provide practical, actionable insights.\n\nINSTRUCTIONS:\nGenerate "
    ++ toString ideaCount ++ " distinct ideas." ++ ideaTypeInstruction ++ domainInstruction
    ++ focusInstruction ++ constraintsInstruction ++ audienceInstruction ++ timeframeInstruction
    ++ "\nEach idea should be specific, actionable, and build upon the content provided.\n\nSOURCE TEXT:\n"
    ++ text
    ++ "\n\nFor each idea, provide:\n1. A clear, compelling title\n2. A detailed description explaining the concept\n3. Implementation steps or approach\n4. Potential benefits\n5. Potential challenges\n6. Effort level (low/medium/high)\n7. Impact level (low/medium/high)\n\nPlease format your response clearly with numbered ideas and organized sections."

/-- `calculateCreativityScore` from `ideate.ts` (float arithmetic in `ℚ`). -/
def calculateCreativityScore (ideas : List IdeaRec) : ℚ :=
  if ideas.length = 0 then 0
  else
    let score := ideas.foldl
      (fun acc idea =>
        let ideaScore : ℚ := 1/5
        let ideaScore := if idea.title ≠ "" ∧ idea.title.length > 10 then ideaScore + 1/10 else ideaScore
        let ideaScore := if idea.description ≠ "" ∧ idea.description.length > 50 then ideaScore + 1/5 else ideaScore
        let ideaScore := if idea.implementation.length > 0 then ideaScore + 1/5 else ideaScore
        let ideaScore := if idea.benefits.length > 0 then ideaScore + 1/10 else ideaScore
        let ideaScore := if idea.challenges.length > 0 then ideaScore + 1/10 else ideaScore
        let ideaScore := if idea.effortLevel ≠ "" ∧ idea.impactLevel ≠ "" then ideaScore + 1/10 else ideaScore
        acc + ideaScore)
      0
    min 1 (score / (ideas.length : ℚ))

structure IdeateContext where
  originalText : String
  domain : Option String
  focusAreas : Option (List String)
  constraints : Option (List String)
deriving DecidableEq, Repr

structure IdeateMeta where
  ideaCount : Nat
  processingTime : Int
  creativityScore : Option ℚ
deriving DecidableEq, Repr

/-- `IdeateResult` from `ideate.ts`. -/
structure IdeateResult where
  ideas : List IdeaRec
  context : IdeateContext
  metadata : IdeateMeta
deriving DecidableEq, Repr

/-- `handleIdeate` from `ideate.ts`: same shape as `handleSummarize` (cache
lookup with the options argument dropped, option merge, empty check,
truncation at 5000 with `"..."`, prompt build, a single `callChromeAI`
call, parse, metadata, cache write); the cached branch computes no
creativity score. -/
def handleIdeate (cfg : Config) (pv : Providers) (defaults : Options)
    (text0 : String) (options : Options) (w : World) :
    Except String IdeateResult × World :=
  let (startTime, w) := tickClock w
  let (cached, w) := getCacheEntry cfg text0 "ideate" w
  match cached with
  | some cachedResponse =>
    let ideas := parseIdeasFromResponse cachedResponse.text
    let (t1, w) := tickClock w
    (.ok { ideas := ideas
         , context := { originalText := text0, domain := options.domain
                      , focusAreas := options.focusAreas, constraints := options.constraints }
         , metadata := { ideaCount := ideas.length, processingTime := t1 - startTime
                       , creativityScore := none } }, w)
  | none =>
    let finalOptions := mergePromptOptions defaults options
    if text0 = "" || (jsTrim text0).length = 0 then
      (.error "Input text cannot be empty", w)
    else
      let text := if text0.length > 5000 then jsSubstring text0 0 5000 ++ "..." else text0
      let prompt := buildIdeatePrompt text finalOptions
      let aiRequest : AIRequest :=
        { prompt := prompt, model := none, maxTokens := some 1500, temperature := some (4/5) }
      match callChromeAI cfg pv aiRequest with
      | .error e => (.error e, w)
      | .ok aiResponse =>
        let ideas := parseIdeasFromResponse aiResponse.text
        let (t2, w) := tickClock w
        let creativityScore := calculateCreativityScore ideas
        let finalResult : IdeateResult :=
          { ideas := ideas
          , context := { originalText := text, domain := options.domain
                       , focusAreas := options.focusAreas, constraints := options.constraints }
          , metadata := { ideaCount := ideas.length, processingTime := t2 - startTime
                        , creativityScore := some creativityScore } }
        let w := saveToCache cfg "ideate" text aiResponse w
        (.ok finalResult, w)

/-! ### Message router (`messageRouter.ts`) -/

/-- `MessageRequest`: `action` is a plain string at runtime (`""` models a
missing/falsy action, matching the `!request.action` guard); `requestId`
uses `""` for absent (the `request.requestId || generateRequestId()` guard
tests JS falsiness). -/
structure MessageRequest where
  action : String
  text : Option String
  options : Options
  requestId : String
deriving DecidableEq, Repr

/-- Payloads produced by the dispatched handlers.  `ext` stands for the
results of the handlers whose bodies no claim depends on
(rewrite/translate/verifyKey/settings); they are supplied by the
environment below. -/
inductive RouterData
  | ping (status : String) (timestamp : Int)
  | summarize (r : SummarizeResult)
  | ideate (r : IdeateResult)
  | cleared (message : String)
  | ext (tag : String)
deriving DecidableEq, Repr

/-- Response `metadata` (`processingTime`, ISO `timestamp` kept as the
instant, `action`). -/
structure RouterMeta where
  processingTime : Int
  timestamp : Int
  action : String
deriving DecidableEq, Repr

/-- `MessageResponse`; `handleMessage` always populates `requestId` and
`metadata` on both paths, so they are non-optional here. -/
structure MessageResponse where
  success : Bool
  data : Option RouterData
  error : Option String
  requestId : String
  metadata : RouterMeta
deriving DecidableEq, Repr

/-- Environment of the router: configuration, providers, the settings
collaborator state behind `getDefaultPromptOptions`, the random component
of `generateRequestId`, and the outcomes of the handlers not modelled in
full (their sources follow the same shape as `handleSummarize` and no claim
touches them). -/
structure RouterEnv where
  cfg : Config
  pv : Providers
  defaults : Options
  genId : String
  rewriteResult : Except String RouterData
  translateResult : Except String RouterData
  verifyKeyResult : Except String RouterData
  getSettingsResult : Except String RouterData
  updateSettingsResult : Except String RouterData

/-- `handlePing`. -/
def handlePing (w : World) : RouterData × World :=
  let (t, w) := tickClock w
  (.ping "pong" t, w)

/-- `handleSummarizeAction`: the missing-text guard in front of
`handleSummarize`. -/
def handleSummarizeAction (cfg : Config) (pv : Providers) (defaults : Options)
    (text : String) (options : Options) (w : World) :
    Except String SummarizeResult × World :=
  if text = "" || (jsTrim text).length = 0 then
    (.error "Text is required for summarization", w)
  else handleSummarize cfg pv defaults text options w

/-- `handleIdeateAction`: the missing-text guard in front of `handleIdeate`. -/
def handleIdeateAction (cfg : Config) (pv : Providers) (defaults : Options)
    (text : String) (options : Options) (w : World) :
    Except String IdeateResult × World :=
  if text = "" || (jsTrim text).length = 0 then
    (.error "Text is required for ideation", w)
  else handleIdeate cfg pv defaults text options w

/-- The action strings of the `switch` in `handleMessage` (the `ActionType`
union). -/
def knownActions : List String :=
  ["summarize", "rewrite", "ideate", "translate", "verifyKey", "ping",
   "getSettings", "updateSettings", "clearCache"]

/-- The error-message remapping of the `catch` block of `handleMessage`. -/
def mapErrorMessage (e : String) : String :=
  if jsIncludes e "INSUFFICIENT_CONTEXT" then
    "INSUFFICIENT_CONTEXT: Please provide at least 10 characters of text"
  else if jsIncludes e "Chrome AI API not available" then
    "AI service unavailable: Chrome AI API not accessible"
  else if jsIncludes e "No AI provider available" then
    "AI service unavailable: No AI providers configured"
  else e

/-- The `catch` block of `handleMessage`: read the clock for
`processingTime` and the response timestamp, remap recognized messages, and
answer with the same envelope shape as a success. -/
def errorResponse (req : MessageRequest) (requestId : String) (startTime : Int)
    (e : String) (w : World) : MessageResponse × World :=
  let (tE, w) := tickClock w
  let (tE2, w) := tickClock w
  ({ success := false, data := none, error := some (mapErrorMessage e)
   , requestId := requestId
   , metadata := { processingTime := tE - startTime, timestamp := tE2, action := req.action } }, w)

/-- The `switch (request.action)` of `handleMessage` (in source order);
the default branch throws `"Unknown action: <action>"`. -/
def dispatchAction (env : RouterEnv) (req : MessageRequest) (w : World) :
    Except String RouterData × World :=
  if req.action = "ping" then
    let (d, w) := handlePing w
    (.ok d, w)
  else if req.action = "summarize" then
    let (r, w) := handleSummarizeAction env.cfg env.pv env.defaults (req.text.getD "") req.options w
    (r.map RouterData.summarize, w)
  else if req.action = "rewrite" then
    if (req.text.getD "") = "" || (jsTrim (req.text.getD "")).length = 0 then
      (.error "Text is required for rewriting", w)
    else (env.rewriteResult, w)
  else if req.action = "ideate" then
    let (r, w) := handleIdeateAction env.cfg env.pv env.defaults (req.text.getD "") req.options w
    (r.map RouterData.ideate, w)
  else if req.action = "translate" then
    if (req.text.getD "") = "" || (jsTrim (req.text.getD "")).length = 0 then
      (.error "Text is required for translation", w)
    else (env.translateResult, w)
  else if req.action = "verifyKey" then (env.verifyKeyResult, w)
  else if req.action = "getSettings" then (env.getSettingsResult, w)
  else if req.action = "updateSettings" then (env.updateSettingsResult, w)
  else if req.action = "clearCache" then (.ok (.cleared "Cache cleared successfully"), clearCache w)
  else (.error ("Unknown action: " ++ req.action), w)

/-- `handleMessage` from `messageRouter.ts`: read `startTime`, settle the
correlation id (`request.requestId || generateRequestId()`, the generator
reading the clock once for its `` `req_${Date.now()}_${rand}` `` shape),
check `!request.action`, then — before dispatching — build the success
metadata (`processingTime: Date.now() - startTime` and the response
timestamp), dispatch, and wrap the outcome; any throw lands in
`errorResponse`. -/
def handleMessage (env : RouterEnv) (req : MessageRequest) (w : World) :
    MessageResponse × World :=
  let (startTime, w) := tickClock w
  let (requestId, w) :=
    if req.requestId ≠ "" then (req.requestId, w)
    else
      let (t, w) := tickClock w
      ("req_" ++ toString t ++ "_" ++ env.genId, w)
  if req.action = "" then
    errorResponse req requestId startTime "Action is required" w
  else
    let (t1, w) := tickClock w
    let (t2, w) := tickClock w
    let metadata : RouterMeta :=
      { processingTime := t1 - startTime, timestamp := t2, action := req.action }
    let (outcome, w) := dispatchAction env req w
    match outcome with
    | .ok d =>
      ({ success := true, data := some d, error := none
       , requestId := requestId, metadata := metadata }, w)
    | .error e => errorResponse req requestId startTime e w

/-! ### Helper definitions for the statements below -/

/-- Successful value of an `Except`, if any. -/
def okValue : Except String α → Option α
  | .ok a => some a
  | .error _ => none

/-- The key/entry pair that `saveToCache` persists for input `x.1` at store
time `x.2`. -/
def pairOf (cfg : Config) (a : String) (resp : AIResponse) (x : String × Int) :
    String × CacheEntry :=
  ("cache_" ++ generateHash x.1 a,
   { id := "cache_" ++ generateHash x.1 a, inputText := x.1, response := resp
   , timestamp := x.2, ttl := cfg.limits.cacheTtl, action := a
   , inputHash := generateHash x.1 a })

/-- Fold `saveToCache` over a list of input texts (the store sequence of the
eviction scenario). -/
def insertAll (cfg : Config) (a : String) (resp : AIResponse)
    (texts : List String) (w : World) : World :=
  texts.foldl (fun w t => saveToCache cfg a t resp w) w

/-- The fingerprint as produced by the exported cache API when called as
`getCachedResponse(text, action, options)` / `saveToCache(action, text,
response, options)`: the two-parameter manager functions drop the extra
`options` argument, so the key is `mkCacheKey text action`. -/
def fingerprintOfCall (action text : String) (_options : Options) : String :=
  mkCacheKey text action

/-! ### Concrete fixtures used to evaluate the code at specific inputs -/

/-- A provider response used as test data. -/
def sampleResponse : AIResponse :=
  { text := "A fine summary.", model := none, provider := "chrome"
  , timestamp := "2024-01-01T00:00:00.000Z", tokensUsed := none }

def zeroStats : CacheStats :=
  { totalEntries := 0, hits := 0, misses := 0, hitRate := 0, oldestEntry := 0, newestEntry := 0 }

/-- A fresh world: empty store, zeroed statistics, clock reading 0,
fault-free storage. -/
def cleanWorld : World := { store := [], stats := zeroStats, clocks := [], faults := [] }

/-- Providers where the Chrome AI call throws and the fallbacks succeed. -/
def sampleProviders : Providers :=
  { chromeAIAvailable := true
  , chromeAPI := fun _ _ => .error "Chrome AI API call failed: boom"
  , openaiAPI := fun _ _ => .ok sampleResponse
  , geminiAPI := fun _ _ => .error "Gemini down"
  , chromeSummarizeAPI := fun _ _ => .ok sampleResponse }

/-- Default configuration with an OpenAI key configured, so that the
fallback chain has a second provider. -/
def cfgWithOpenAI : Config :=
  { defaultConfig with ai := { defaultConfig.ai with
      openai := { defaultConfig.ai.openai with apiKey := "sk-test" } } }

/-- An already-expired cache entry (stored two hours before clock time
10000000 with a one-hour TTL), as in scenario 3 of §8 of the design. -/
def expiredEntry : CacheEntry :=
  { id := mkCacheKey "test text" "summarize", inputText := "test text"
  , response := sampleResponse, timestamp := 10000000 - 7200000, ttl := 3600000
  , action := "summarize", inputHash := generateHash "test text" "summarize" }

/-- A world holding only `expiredEntry`, observed at time 10000000. -/
def expiredWorld : World :=
  { store := [(mkCacheKey "test text" "summarize", expiredEntry)]
  , stats := zeroStats, clocks := [10000000], faults := [] }

/-- A request fixture for the orchestrator. -/
def sampleAIRequest : AIRequest :=
  { prompt := "Summarize this.", model := none, maxTokens := some 300, temperature := some (3/10) }

/-- `cfgWithOpenAI` but with the preferred provider switched away from
Chrome, so that the Chrome branch is not attempted. -/
def cfgProviderOpenAI : Config :=
  { cfgWithOpenAI with ai := { cfgWithOpenAI.ai with provider := .openai } }

/-- `cfgProviderOpenAI` with fallback disabled. -/
def cfgNoFallback : Config :=
  { cfgProviderOpenAI with features := { cfgProviderOpenAI.features with enableFallback := false } }

/-- Default configuration with caching disabled. -/
def cfgNoCache : Config :=
  { defaultConfig with features := { defaultConfig.features with enableCaching := false } }

/-- Router environment over the fixtures (the abstract handler outcomes are
never reached by the claims below). -/
def sampleEnv : RouterEnv :=
  { cfg := defaultConfig, pv := sampleProviders, defaults := noOptions, genId := "rnd"
  , rewriteResult := .ok (.ext "rewrite"), translateResult := .ok (.ext "translate")
  , verifyKeyResult := .ok (.ext "verifyKey"), getSettingsResult := .ok (.ext "getSettings")
  , updateSettingsResult := .ok (.ext "updateSettings") }

/-- Providers where every call succeeds (used to drive the truncation
scenario through the provider stage). -/
def okProviders : Providers :=
  { chromeAIAvailable := true
  , chromeAPI := fun _ _ => .ok sampleResponse
  , openaiAPI := fun _ _ => .ok sampleResponse
  , geminiAPI := fun _ _ => .ok sampleResponse
  , chromeSummarizeAPI := fun _ _ => .ok sampleResponse }

/-- 5001 copies of `'a'`: a non-blank text exceeding the 5000 maximum. -/
def longText : String := String.mk (List.replicate 5001 'a')

/-- 5001 spaces: a blank text exceeding the 5000 maximum. -/
def blankLongText : String := String.mk (List.replicate 5001 ' ')

/-- Default configuration with `maxCacheEntries` lowered to 2 (scenario 1 of
§8 of the design). -/
def cfgMax2 : Config :=
  { defaultConfig with limits := { defaultConfig.limits with maxCacheEntries := 2 } }

/-! ## Theorems -/

set_option maxRecDepth 20000

/-- C2 (counterexample): the fingerprint does not change when only the
options change — the exported cache API drops the options argument, so two
structurally different options objects always yield the same key, refuting
"changing any one of the three inputs changes the key". -/
theorem c2_fingerprint_counterexample :
    noOptions ≠ { noOptions with tone := some "formal" } ∧
    fingerprintOfCall "summarize" "hello world" noOptions
      = fingerprintOfCall "summarize" "hello world" { noOptions with tone := some "formal" } :=
  ⟨by decide, rfl⟩

/-- C2 (amended): the cache fingerprint is deterministic — computing it
twice on the same `(action, text, options)` gives the same key — and it is
a function of `(action, text)` only: the options argument never affects the
key.  Changing the action or the text changes the key except on collisions
of the 32-bit rolling hash of `` `${action}:${text}` ``; such collisions
are real (moving characters across the `:` separator collides exactly), as
the last conjunct shows, while the third conjunct shows a text change that
does change the key. -/
theorem c2_fingerprint_amended :
    (∀ action text options,
      fingerprintOfCall action text options = fingerprintOfCall action text options) ∧
    (∀ action text o₁ o₂,
      fingerprintOfCall action text o₁ = fingerprintOfCall action text o₂) ∧
    generateHash "hello" "summarize" ≠ generateHash "world" "summarize" ∧
    (("summarize", "b:c") ≠ (("summarize:b", "c") : String × String) ∧
      generateHash "b:c" "summarize" = generateHash "c" "summarize:b") :=
  ⟨fun _ _ _ => rfl, fun _ _ _ _ => rfl, by decide, by decide, by decide⟩

/-- C3 (code evaluated at the failing input): a 2-character text passes
every check of the summarize pipeline — no `INSUFFICIENT_CONTEXT` error is
raised, the provider is consulted, the result is returned successfully and
even written to the cache.  The 10-character validation exists only in
`promptBuilder.buildPrompt`, which no action handler calls; the repository's
own tests expect `handleSummarize('Hi')` to reject with
`INSUFFICIENT_CONTEXT`. -/
theorem c3_short_text_reaches_provider :
    "Hi".length < 10 ∧
    ((okValue (handleSummarize defaultConfig sampleProviders noOptions "Hi" noOptions cleanWorld).1).map
      (fun r => r.summary)) = some "A fine summary." ∧
    ((okValue (handleSummarize defaultConfig sampleProviders noOptions "Hi" noOptions cleanWorld).1).map
      (fun r => r.metadata.originalLength)) = some 2 ∧
    ((handleSummarize defaultConfig sampleProviders noOptions "Hi" noOptions cleanWorld).2.store.map
      (fun p => p.2.inputText)) = ["Hi"] :=
  ⟨by decide, by decide, by decide, by decide⟩

/-- C4 (code evaluated at the failing input): `handleMessage` computes the
success metadata before the `switch` dispatch.  With clock readings
1000, 1000, 1000, 1100, the ping handler finishes at 1100 (visible in the
returned data), 100 ms after request receipt, yet
`metadata.processingTime = 0` because both its readings predate dispatch. -/
theorem c4_processing_time_before_dispatch :
    (handleMessage sampleEnv
        { action := "ping", text := none, options := noOptions, requestId := "r1" }
        { cleanWorld with clocks := [1000, 1000, 1000, 1100] }).1
      = { success := true, data := some (.ping "pong" 1100), error := none, requestId := "r1"
        , metadata := { processingTime := 0, timestamp := 1000, action := "ping" } } := by
  decide

/-- C1 (counterexample): with Chrome as the configured provider,
`chrome.ai` available, fallback enabled and an OpenAI key configured, a
throw from the attempted Chrome call is surfaced as-is by `callChromeAI`
even though the OpenAI provider would have succeeded — the orchestrator
does not proceed to the next provider after an exception. -/
theorem c1_fallback_counterexample :
    cfgWithOpenAI.features.enableFallback = true ∧
    cfgWithOpenAI.ai.provider = .chrome ∧
    sampleProviders.chromeAIAvailable = true ∧
    sampleProviders.chromeAPI sampleAIRequest cfgWithOpenAI.ai.chrome.model
      = .error "Chrome AI API call failed: boom" ∧
    sampleProviders.openaiAPI sampleAIRequest cfgWithOpenAI.ai.openai = .ok sampleResponse ∧
    callChromeAI cfgWithOpenAI sampleProviders sampleAIRequest
      = .error "Chrome AI API call failed: boom" :=
  ⟨rfl, rfl, rfl, rfl, rfl, rfl⟩

/-- C1 (amended): in `callChromeAI`, (a) an exception thrown by the
attempted Chrome provider is logged and rethrown — terminal regardless of
the fallback flag; (b) fallback to the next provider happens only when the
primary is not attempted at all (provider not `chrome` or `chrome.ai`
absent), in which case the OpenAI outcome (success or failure) is returned
as-is when fallback is enabled and a key is configured; (c) with fallback
disabled and the primary not attempted, the call fails terminally with
`"No AI provider available"`. -/
theorem c1_fallback_amended (cfg : Config) (pv : Providers) (request : AIRequest) :
    (∀ m, cfg.ai.provider = .chrome → pv.chromeAIAvailable = true →
      pv.chromeAPI request cfg.ai.chrome.model = .error m →
      callChromeAI cfg pv request = .error m) ∧
    (¬(cfg.ai.provider = .chrome ∧ pv.chromeAIAvailable = true) →
      cfg.features.enableFallback = true → cfg.ai.openai.apiKey ≠ "" →
      callChromeAI cfg pv request = pv.openaiAPI request cfg.ai.openai) ∧
    (¬(cfg.ai.provider = .chrome ∧ pv.chromeAIAvailable = true) →
      cfg.features.enableFallback = false →
      callChromeAI cfg pv request = .error "No AI provider available") := by
  refine ⟨?_, ?_, ?_⟩
  · intro m hp ha hc
    simp [callChromeAI, hp, ha, hc]
  · intro hnot hf hk
    have hfalse : (cfg.ai.provider == ProviderKind.chrome && pv.chromeAIAvailable) = false := by
      cases hcp : cfg.ai.provider <;> cases hav : pv.chromeAIAvailable <;> simp_all
    simp [callChromeAI, hfalse, hf, hk]
  · intro hnot hf
    have hfalse : (cfg.ai.provider == ProviderKind.chrome && pv.chromeAIAvailable) = false := by
      cases hcp : cfg.ai.provider <;> cases hav : pv.chromeAIAvailable <;> simp_all
    simp [callChromeAI, hfalse, hf]

/-- Witness for `c1_fallback_amended` at concrete inputs: a thrown Chrome
error is surfaced; with the provider set to OpenAI the fallback result is
returned; with fallback disabled the call is terminal. -/
theorem c1_fallback_amended_witness :
    callChromeAI cfgWithOpenAI sampleProviders sampleAIRequest
      = .error "Chrome AI API call failed: boom" ∧
    callChromeAI cfgProviderOpenAI sampleProviders sampleAIRequest = .ok sampleResponse ∧
    callChromeAI cfgNoFallback sampleProviders sampleAIRequest
      = .error "No AI provider available" := by
  refine ⟨(c1_fallback_amended cfgWithOpenAI sampleProviders sampleAIRequest).1 _ rfl rfl rfl, ?_, ?_⟩
  · have h := (c1_fallback_amended cfgProviderOpenAI sampleProviders sampleAIRequest).2.1
      (by decide) rfl (by decide)
    exact h.trans rfl
  · exact (c1_fallback_amended cfgNoFallback sampleProviders sampleAIRequest).2.2
      (by decide) rfl

/-- C10: with caching disabled, a lookup returns `null` without touching
storage (`clocks` and `faults` are unconsumed, the store unchanged), yet it
still counts a miss and recomputes the hit rate; `hits` and `totalEntries`
are unchanged. -/
theorem c10_disabled_cache_stats (cfg : Config) (text action : String) (w : World)
    (hc : cfg.features.enableCaching = false) :
    (getCacheEntry cfg text action w).1 = none ∧
    (getCacheEntry cfg text action w).2.store = w.store ∧
    (getCacheEntry cfg text action w).2.clocks = w.clocks ∧
    (getCacheEntry cfg text action w).2.faults = w.faults ∧
    (getCacheEntry cfg text action w).2.stats.misses = w.stats.misses + 1 ∧
    (getCacheEntry cfg text action w).2.stats.hits = w.stats.hits ∧
    (getCacheEntry cfg text action w).2.stats.totalEntries = w.stats.totalEntries ∧
    (getCacheEntry cfg text action w).2.stats.hitRate
      = (w.stats.hits : ℚ) / ((w.stats.hits : ℚ) + (w.stats.misses : ℚ) + 1) := by
  have hpos : 0 < w.stats.hits + (w.stats.misses + 1) := by omega
  simp [getCacheEntry, hc, bumpMiss, updateHitRate, hpos]
  ring

/-- Witness for `c10_disabled_cache_stats` at a concrete input. -/
theorem c10_disabled_cache_stats_witness :
    cfgNoCache.features.enableCaching = false ∧
    (getCacheEntry cfgNoCache "t" "summarize" cleanWorld).1 = none ∧
    (getCacheEntry cfgNoCache "t" "summarize" cleanWorld).2.stats.misses
      = cleanWorld.stats.misses + 1 :=
  ⟨by decide,
   (c10_disabled_cache_stats cfgNoCache "t" "summarize" cleanWorld (by decide)).1,
   (c10_disabled_cache_stats cfgNoCache "t" "summarize" cleanWorld (by decide)).2.2.2.2.1⟩

/-- C7: a `chrome.storage` failure in the first primitive call of a cache
operation is caught and logged inside the cache layer: the lookup returns
`null` and counts a miss with the store untouched, the save returns with
store and statistics untouched, and the clear returns with store and
statistics untouched — no storage error ever escapes the cache API (which
is total by construction: every path of the translation ends in a caught
state). -/
theorem c7_storage_failure_contained (cfg : Config) (text action : String)
    (resp : AIResponse) (w : World) (rest : List Bool)
    (hc : cfg.features.enableCaching = true)
    (hf : w.faults = true :: rest) :
    ((getCacheEntry cfg text action w).1 = none ∧
      (getCacheEntry cfg text action w).2.stats.misses = w.stats.misses + 1 ∧
      (getCacheEntry cfg text action w).2.store = w.store) ∧
    ((saveToCache cfg action text resp w).store = w.store ∧
      (saveToCache cfg action text resp w).stats = w.stats) ∧
    ((clearCache w).store = w.store ∧ (clearCache w).stats = w.stats) := by
  simp [getCacheEntry, saveToCache, clearCache, tickFault, tickClock, hf, hc,
    bumpMiss, updateHitRate]

theorem insertSorted_perm (le : CacheEntry → CacheEntry → Bool) (a : CacheEntry) :
    ∀ l : List CacheEntry, List.Perm (insertSorted le a l) (a :: l) := by
  intro l
  induction l with
  | nil => exact List.Perm.refl _
  | cons b t ih =>
    simp only [insertSorted]
    split
    · exact List.Perm.refl _
    · exact (ih.cons b).trans (List.Perm.swap a b t)

theorem sortEntries_perm (le : CacheEntry → CacheEntry → Bool) :
    ∀ l : List CacheEntry, List.Perm (sortEntries le l) l := by
  intro l
  induction l with
  | nil => exact List.Perm.refl _
  | cons a t ih => exact (insertSorted_perm le a _).trans (ih.cons a)

theorem lookupKey_filter_self (k : String) :
    ∀ s : List (String × CacheEntry), lookupKey k (s.filter (fun p => p.1 != k)) = none := by
  intro s
  induction s with
  | nil => rfl
  | cons p t ih =>
    by_cases h : p.1 = k
    · simpa [List.filter_cons, h] using ih
    · simpa [List.filter_cons, h, lookupKey] using ih

theorem getAllCacheEntries_snd (w : World) :
    (getAllCacheEntries w).2 = { w with faults := w.faults.tail } := by
  simp only [getAllCacheEntries, tickFault]
  split <;> rfl

theorem getAllCacheEntries_fst_of_no_fault (w : World) (hf : w.faults.headD false = false) :
    (getAllCacheEntries w).1
      = sortEntries byTsDesc ((w.store.filter (fun p => jsStartsWith p.1 "cache_")).map
          (fun p => p.2)) := by
  have hf2 : w.faults.head?.getD false = false := by
    rw [← List.headD_eq_head?]; exact hf
  simp [getAllCacheEntries, tickFault, hf2]

theorem updateStats_proj (w : World) :
    (updateStats w).store = w.store ∧ (updateStats w).clocks = w.clocks ∧
    (updateStats w).faults = w.faults.tail ∧
    (updateStats w).stats.misses = w.stats.misses ∧
    (updateStats w).stats.hits = w.stats.hits ∧
    (updateStats w).stats.totalEntries = w.stats.totalEntries ∧
    (updateStats w).stats.hitRate = w.stats.hitRate := by
  simp only [updateStats, getAllCacheEntries_snd]
  split <;> simp [getAllCacheEntries_snd]

theorem removeCacheEntry_proj (key : String) (w : World) (hf : w.faults = []) :
    (removeCacheEntry key w).store = w.store.filter (fun p => p.1 != key) ∧
    (removeCacheEntry key w).clocks = w.clocks ∧
    (removeCacheEntry key w).faults = [] ∧
    (removeCacheEntry key w).stats.misses = w.stats.misses ∧
    (removeCacheEntry key w).stats.hits = w.stats.hits := by
  simp only [removeCacheEntry, tickFault, hf]
  norm_num
  refine ⟨(updateStats_proj _).1, (updateStats_proj _).2.1, by simpa using (updateStats_proj _).2.2.1,
    (updateStats_proj _).2.2.2.1, (updateStats_proj _).2.2.2.2.1⟩

theorem c5_expired_entry_lookup (cfg : Config) (text action : String) (e : CacheEntry)
    (w : World)
    (hc : cfg.features.enableCaching = true)
    (hf : w.faults = [])
    (hl : lookupKey (mkCacheKey text action) w.store = some e)
    (hwf : ∀ p ∈ w.store, p.2.id = p.1)
    (hexp : e.timestamp + e.ttl < w.clocks.headD 0) :
    (getCacheEntry cfg text action w).1 = none ∧
    (getCacheEntry cfg text action w).2.stats.misses = w.stats.misses + 1 ∧
    (getCacheEntry cfg text action w).2.stats.hits = w.stats.hits ∧
    lookupKey (mkCacheKey text action) (getCacheEntry cfg text action w).2.store = none ∧
    ((getAllCacheEntries (getCacheEntry cfg text action w).2).1.filter
      (fun en => en.id == mkCacheKey text action)) = [] := by
  have hexp2 : e.timestamp + e.ttl < w.clocks.head?.getD 0 := by
    rw [← List.headD_eq_head?]; exact hexp
  have hrm := removeCacheEntry_proj (mkCacheKey text action)
    { w with clocks := w.clocks.tail, faults := [] } rfl
  have hget : getCacheEntry cfg text action w
      = (none, bumpMiss (removeCacheEntry (mkCacheKey text action)
          { w with clocks := w.clocks.tail, faults := [] })) := by
    simp only [getCacheEntry, hc, Bool.not_true, Bool.false_eq_true, if_false,
      tickFault, tickClock, hf, hl]
    simp [hexp2]
  rw [hget]
  refine ⟨rfl, ?_, ?_, ?_, ?_⟩
  · simp [bumpMiss, updateHitRate, hrm.2.2.2.1]
  · simp [bumpMiss, updateHitRate, hrm.2.2.2.2]
  · have hst : (bumpMiss (removeCacheEntry (mkCacheKey text action)
        { w with clocks := w.clocks.tail, faults := [] })).store
        = w.store.filter (fun p => p.1 != mkCacheKey text action) := by
      simpa [bumpMiss] using hrm.1
    rw [hst]
    exact lookupKey_filter_self _ _
  · set w2 := bumpMiss (removeCacheEntry (mkCacheKey text action)
      { w with clocks := w.clocks.tail, faults := [] }) with hw2
    have hst : w2.store = w.store.filter (fun p => p.1 != mkCacheKey text action) := by
      simpa [hw2, bumpMiss] using hrm.1
    have hfa : w2.faults.headD false = false := by
      have h0 : w2.faults = [] := by simpa [hw2, bumpMiss] using hrm.2.2.1
      simp [h0]
    rw [getAllCacheEntries_fst_of_no_fault w2 hfa]
    rw [List.filter_eq_nil_iff]
    intro en hen
    have hmem : en ∈ (w2.store.filter (fun p => jsStartsWith p.1 "cache_")).map
        (fun p => p.2) :=
      ((sortEntries_perm byTsDesc _).mem_iff).mp hen
    rcases List.mem_map.mp hmem with ⟨p, hp, hpe⟩
    have hp1 : p ∈ w2.store := (List.mem_filter.mp hp).1
    rw [hst] at hp1
    have hpw : p ∈ w.store := (List.mem_filter.mp hp1).1
    have hne : (p.1 != mkCacheKey text action) = true := (List.mem_filter.mp hp1).2
    have hid : p.2.id = p.1 := hwf p hpw
    rw [← hpe]
    simp only [hid]
    simpa using hne

/-- Witness for `c5_expired_entry_lookup`: scenario 3 of §8 of the design —
an entry stored two hours ago with a one-hour TTL is a miss and disappears
from the enumeration. -/
theorem c5_expired_entry_lookup_witness :
    (getCacheEntry defaultConfig "test text" "summarize" expiredWorld).1 = none ∧
    (getCacheEntry defaultConfig "test text" "summarize" expiredWorld).2.stats.misses
      = expiredWorld.stats.misses + 1 := by
  have h := c5_expired_entry_lookup defaultConfig "test text" "summarize"
    expiredEntry expiredWorld rfl rfl
    (by simp [expiredWorld, lookupKey])
    (by intro p hp
        simp only [expiredWorld, List.mem_singleton] at hp
        rw [hp]
        rfl)
    (by norm_num [expiredWorld, expiredEntry])
  exact ⟨h.1, h.2.1⟩

/-- Witness for `c7_storage_failure_contained` at a concrete input. -/
theorem c7_storage_failure_contained_witness :
    (getCacheEntry defaultConfig "t" "summarize" { cleanWorld with faults := [true] }).1 = none ∧
    (saveToCache defaultConfig "summarize" "t" sampleResponse
      { cleanWorld with faults := [true] }).store = cleanWorld.store ∧
    (clearCache { cleanWorld with faults := [true] }).stats = cleanWorld.stats := by
  have h := c7_storage_failure_contained defaultConfig "t" "summarize" sampleResponse
    { cleanWorld with faults := [true] } [] rfl rfl
  exact ⟨h.1.1, h.2.1.1, h.2.2.2⟩


/-- C8 (amended): for every request whose action is present (non-empty) and
not in the known action set, and whose action string does not itself contain
one of the three substrings remapped by the error handler, `handleMessage`
answers in the single response envelope: `success = false`,
`error = "Unknown action: <action>"`, no data, the action echoed in the
metadata, and the correlation id equal to the caller-supplied `requestId`
(or the one generated at entry when absent). -/
theorem c8_unknown_action_envelope (env : RouterEnv) (req : MessageRequest) (w : World)
    (hk : req.action ∉ knownActions)
    (hne : req.action ≠ "")
    (h1 : jsIncludes ("Unknown action: " ++ req.action) "INSUFFICIENT_CONTEXT" = false)
    (h2 : jsIncludes ("Unknown action: " ++ req.action) "Chrome AI API not available" = false)
    (h3 : jsIncludes ("Unknown action: " ++ req.action) "No AI provider available" = false) :
    (handleMessage env req w).1.success = false ∧
    (handleMessage env req w).1.error = some ("Unknown action: " ++ req.action) ∧
    (handleMessage env req w).1.data = none ∧
    (handleMessage env req w).1.metadata.action = req.action ∧
    (handleMessage env req w).1.requestId
      = (if req.requestId ≠ "" then req.requestId
         else "req_" ++ toString (w.clocks.tail.headD 0) ++ "_" ++ env.genId) := by
  simp only [knownActions, List.mem_cons, List.not_mem_nil, or_false] at hk
  push_neg at hk
  obtain ⟨hs, hrw, hi, htr, hv, hp, hg, hu, hcc⟩ := hk
  have hd : ∀ w' : World, dispatchAction env req w'
      = (.error ("Unknown action: " ++ req.action), w') := by
    intro w'
    simp [dispatchAction, hs, hrw, hi, htr, hv, hp, hg, hu, hcc]
  simp only [handleMessage, hne, if_false, hd, errorResponse, mapErrorMessage, h1, h2, h3]
  refine ⟨by simp [hne], by simp [hne], by simp [hne], by simp [hne], ?_⟩
  by_cases hr : req.requestId = ""
  · simp [hr, tickClock]
  · simp [hr]


/-- Witness for `c8_unknown_action_envelope`: the `{action: "bogus"}`
scenario of §8 of the design. -/
theorem c8_unknown_action_envelope_witness :
    (handleMessage sampleEnv
      { action := "bogus", text := none, options := noOptions, requestId := "abc" }
      cleanWorld).1.success = false ∧
    (handleMessage sampleEnv
      { action := "bogus", text := none, options := noOptions, requestId := "abc" }
      cleanWorld).1.error = some "Unknown action: bogus" ∧
    (handleMessage sampleEnv
      { action := "bogus", text := none, options := noOptions, requestId := "abc" }
      cleanWorld).1.requestId = "abc" := by
  have h := c8_unknown_action_envelope sampleEnv
    { action := "bogus", text := none, options := noOptions, requestId := "abc" }
    cleanWorld (by decide) (by decide) (by decide) (by decide) (by decide)
  exact ⟨h.1, h.2.1, h.2.2.2.2.trans (by decide)⟩

/-- C8 (counterexample): two unknown-action requests that do not produce
the `"Unknown action: <action>"` message — an empty action string is
rejected earlier with `"Action is required"`, and an action named
`INSUFFICIENT_CONTEXT` has its unknown-action message remapped by the
error handler. -/
theorem c8_unknown_action_counterexample :
    ("" ∉ knownActions ∧
      (handleMessage sampleEnv
        { action := "", text := none, options := noOptions, requestId := "abc" }
        cleanWorld).1.error = some "Action is required") ∧
    ("INSUFFICIENT_CONTEXT" ∉ knownActions ∧
      (handleMessage sampleEnv
        { action := "INSUFFICIENT_CONTEXT", text := none, options := noOptions, requestId := "abc" }
        cleanWorld).1.error
        = some "INSUFFICIENT_CONTEXT: Please provide at least 10 characters of text" ∧
      ("INSUFFICIENT_CONTEXT: Please provide at least 10 characters of text" : String)
        ≠ "Unknown action: INSUFFICIENT_CONTEXT") :=
  ⟨⟨by decide, by decide⟩, by decide, by decide, by decide⟩


theorem jsStartsWith_mkCacheKey (t a : String) :
    jsStartsWith (mkCacheKey t a) "cache_" = true := rfl

theorem jsStartsWith_cachePre (s : String) :
    jsStartsWith ("cache_" ++ s) "cache_" = true := rfl

/-- C9 (amended): for every non-blank input text longer than the 5000
character maximum, `handleSummarize` and `handleIdeate` do not reject the
request: the text is truncated to 5000 characters with a visible `"..."`
marker appended, the provider is called on the truncated text (the
summarize result's summary is the provider's answer for it, the ideate
result's context carries it), and the cache entry is stored under the
truncated text's fingerprint with the truncated text as `inputText`. -/
theorem c9_truncation_amended (cfg : Config) (pv : Providers) (defaults : Options)
    (text : String) (options : Options) (w : World) (resp respI : AIResponse)
    (hlen : text.length > 5000)
    (hblank : (jsTrim text).length ≠ 0)
    (hc : cfg.features.enableCaching = true)
    (hmax : 1 ≤ cfg.limits.maxCacheEntries)
    (hstore : w.store = [])
    (hfaults : w.faults = [])
    (hprov : pv.chromeSummarizeAPI (jsSubstring text 0 5000 ++ "...")
        ((mergePromptOptions defaults options).summaryLength.getD "medium") = .ok resp)
    (hresp : jsTrim resp.text ≠ "")
    (hprovI : callChromeAI cfg pv
        { prompt := buildIdeatePrompt (jsSubstring text 0 5000 ++ "...")
            (mergePromptOptions defaults options)
        , model := none, maxTokens := some 1500, temperature := some (4/5) } = .ok respI) :
    ((okValue (handleSummarize cfg pv defaults text options w).1).map (fun r => r.summary))
      = some (jsTrim resp.text) ∧
    ((okValue (handleSummarize cfg pv defaults text options w).1).map
      (fun r => r.metadata.originalLength)) = some (jsSubstring text 0 5000 ++ "...").length ∧
    ((lookupKey (mkCacheKey (jsSubstring text 0 5000 ++ "...") "summarize")
        (handleSummarize cfg pv defaults text options w).2.store).map (fun en => en.inputText))
      = some (jsSubstring text 0 5000 ++ "...") ∧
    ((lookupKey (mkCacheKey (jsSubstring text 0 5000 ++ "...") "summarize")
        (handleSummarize cfg pv defaults text options w).2.store).map (fun en => en.response))
      = some resp ∧
    ((okValue (handleIdeate cfg pv defaults text options w).1).map
      (fun r => r.context.originalText)) = some (jsSubstring text 0 5000 ++ "...") ∧
    ((lookupKey (mkCacheKey (jsSubstring text 0 5000 ++ "...") "ideate")
        (handleIdeate cfg pv defaults text options w).2.store).map (fun en => en.inputText))
      = some (jsSubstring text 0 5000 ++ "...") := by
  have hne : ¬(text = "") := by
    intro h
    rw [h] at hlen
    simp at hlen
  have hbl : ¬((jsTrim text).length = 0) := hblank
  have hre : ¬(jsTrim resp.text = "") := hresp
  simp only [handleSummarize, handleIdeate, getCacheEntry, tickClock, tickFault,
    saveToCache, cleanupOldEntries, getAllCacheEntries, updateStats, setKey,
    lookupKey, sortEntries, insertSorted, bumpMiss, parseSummarizeResponse]
  simp [hstore, hfaults, hc, hlen, hne, hbl, hprov, hprovI, hre,
    jsStartsWith_cachePre, mkCacheKey, hmax, okValue, lookupKey,
    sortEntries, insertSorted]


theorem dropWhile_replicate_space (n : Nat) :
    (List.replicate n ' ').dropWhile isSpaceChar = [] := by
  induction n with
  | zero => rfl
  | succ k ih => simp [List.replicate_succ, List.dropWhile_cons, isSpaceChar, ih]

theorem dropWhile_replicate_a (n : Nat) :
    (List.replicate n 'a').dropWhile isSpaceChar = List.replicate n 'a' := by
  cases n with
  | zero => rfl
  | succ k => simp [List.replicate_succ, List.dropWhile_cons, isSpaceChar]

theorem jsTrim_blankLong : jsTrim blankLongText = "" := by
  show String.mk ((((List.replicate 5001 ' ').dropWhile isSpaceChar).reverse.dropWhile
    isSpaceChar).reverse) = ""
  rw [dropWhile_replicate_space]
  rfl

theorem jsTrim_longText : jsTrim longText = longText := by
  show String.mk ((((List.replicate 5001 'a').dropWhile isSpaceChar).reverse.dropWhile
    isSpaceChar).reverse) = longText
  rw [dropWhile_replicate_a, List.reverse_replicate, dropWhile_replicate_a,
    List.reverse_replicate]
  rfl

theorem longText_length : longText.length = 5001 := by
  show (List.replicate 5001 'a').length = 5001
  rw [List.length_replicate]

theorem blankLongText_length : blankLongText.length = 5001 := by
  show (List.replicate 5001 ' ').length = 5001
  rw [List.length_replicate]


/-- C9 (counterexample): an all-whitespace text longer than the maximum is
rejected, not truncated — the handler's emptiness validation
(`"Input text cannot be empty"`) fires on the trimmed text before the
length bound is applied, refuting the claim for blank over-long inputs. -/
theorem c9_truncation_counterexample :
    blankLongText.length > 5000 ∧
    (handleSummarize defaultConfig sampleProviders noOptions blankLongText noOptions
      cleanWorld).1 = .error "Input text cannot be empty" := by
  refine ⟨by rw [blankLongText_length]; omega, ?_⟩
  simp only [handleSummarize, getCacheEntry, tickClock, tickFault, lookupKey, bumpMiss]
  simp [cleanWorld, jsTrim_blankLong]

/-- Witness for `c9_truncation_amended`: 5001 copies of `'a'` are truncated
to 5000 plus the marker in both handlers. -/
theorem c9_truncation_amended_witness :
    ((okValue (handleSummarize defaultConfig okProviders noOptions longText noOptions
        cleanWorld).1).map (fun r => r.summary)) = some (jsTrim sampleResponse.text) ∧
    ((lookupKey (mkCacheKey (jsSubstring longText 0 5000 ++ "...") "summarize")
        (handleSummarize defaultConfig okProviders noOptions longText noOptions
          cleanWorld).2.store).map (fun en => en.inputText))
      = some (jsSubstring longText 0 5000 ++ "...") ∧
    ((okValue (handleIdeate defaultConfig okProviders noOptions longText noOptions
        cleanWorld).1).map (fun r => r.context.originalText))
      = some (jsSubstring longText 0 5000 ++ "...") := by
  have h := c9_truncation_amended defaultConfig okProviders noOptions longText noOptions
    cleanWorld sampleResponse sampleResponse
    (by rw [longText_length]; omega)
    (by rw [jsTrim_longText, longText_length]; omega)
    rfl (by decide) rfl rfl rfl (by decide) rfl
  exact ⟨h.1, h.2.2.1, h.2.2.2.2.1⟩


theorem insertSorted_pairwise (le : CacheEntry → CacheEntry → Bool)
    (htrans : ∀ a b c, le a b = true → le b c = true → le a c = true)
    (htot : ∀ a b, le a b = false → le b a = true)
    (a : CacheEntry) (l : List CacheEntry)
    (h : l.Pairwise (fun x y => le x y = true)) :
    (insertSorted le a l).Pairwise (fun x y => le x y = true) := by
  induction l with
  | nil => simp [insertSorted]
  | cons b t ih =>
    rw [List.pairwise_cons] at h
    obtain ⟨hb, ht⟩ := h
    simp only [insertSorted]
    split
    · rename_i hab
      rw [List.pairwise_cons]
      refine ⟨?_, List.pairwise_cons.mpr ⟨hb, ht⟩⟩
      intro x hx
      rcases List.mem_cons.mp hx with hxb | hxt
      · rw [hxb]; exact hab
      · exact htrans a b x hab (hb x hxt)
    · rename_i hab
      rw [List.pairwise_cons]
      refine ⟨?_, ih ht⟩
      intro x hx
      have hx2 : x ∈ a :: t := ((insertSorted_perm le a t).mem_iff).mp hx
      rcases List.mem_cons.mp hx2 with hxa | hxt
      · rw [hxa]; exact htot a b (by simpa using hab)
      · exact hb x hxt

theorem sortEntries_pairwise (le : CacheEntry → CacheEntry → Bool)
    (htrans : ∀ a b c, le a b = true → le b c = true → le a c = true)
    (htot : ∀ a b, le a b = false → le b a = true) :
    ∀ l : List CacheEntry, (sortEntries le l).Pairwise (fun x y => le x y = true) := by
  intro l
  induction l with
  | nil => simp [sortEntries]
  | cons a t ih => exact insertSorted_pairwise le htrans htot a _ ih

theorem byTsAsc_trans : ∀ a b c : CacheEntry,
    byTsAsc a b = true → byTsAsc b c = true → byTsAsc a c = true := by
  intro a b c
  simp only [byTsAsc, decide_eq_true_eq]
  omega

theorem byTsAsc_total : ∀ a b : CacheEntry, byTsAsc a b = false → byTsAsc b a = true := by
  intro a b
  simp only [byTsAsc, decide_eq_true_eq, decide_eq_false_iff_not]
  omega

theorem sorted_unique (l₁ l₂ : List CacheEntry)
    (hp : List.Perm l₁ l₂)
    (h1 : l₁.Pairwise (fun x y => x.timestamp < y.timestamp))
    (h2 : l₂.Pairwise (fun x y => x.timestamp < y.timestamp)) : l₁ = l₂ := by
  haveI : IsAntisymm CacheEntry (fun x y => x.timestamp < y.timestamp) :=
    ⟨fun a b hab hba => absurd hba (by omega)⟩
  exact List.eq_of_perm_of_sorted hp h1 h2

theorem pairwise_lt_of_le_of_perm (l asc : List CacheEntry)
    (hperm : List.Perm l asc)
    (hasc : asc.Pairwise (fun x y => x.timestamp < y.timestamp))
    (hle : l.Pairwise (fun x y => byTsAsc x y = true)) :
    l.Pairwise (fun x y => x.timestamp < y.timestamp) := by
  have hnd : (asc.map (fun e => e.timestamp)).Nodup :=
    List.pairwise_map.mpr (hasc.imp (fun h => by omega))
  have hndl : (l.map (fun e => e.timestamp)).Nodup :=
    ((hperm.map (fun e => e.timestamp)).nodup_iff).mpr hnd
  have hne : l.Pairwise (fun x y => x.timestamp ≠ y.timestamp) :=
    List.pairwise_map.mp hndl
  have := hle.and hne
  exact this.imp (fun h => by
    obtain ⟨h1, h2⟩ := h
    have := of_decide_eq_true h1
    omega)

theorem sortAsc_eq_of_ascending (l asc : List CacheEntry)
    (hperm : List.Perm l asc)
    (hasc : asc.Pairwise (fun x y => x.timestamp < y.timestamp)) :
    sortEntries byTsAsc l = asc := by
  have hp2 : List.Perm (sortEntries byTsAsc l) asc := (sortEntries_perm _ l).trans hperm
  have hle := sortEntries_pairwise byTsAsc byTsAsc_trans byTsAsc_total l
  exact sorted_unique _ _ hp2 (pairwise_lt_of_le_of_perm _ asc hp2 hasc hle) hasc


theorem cleanup_proj_small (cfg : Config) (w : World)
    (hpre : ∀ p ∈ w.store, jsStartsWith p.1 "cache_" = true)
    (hf : w.faults = [])
    (hlen : w.store.length ≤ cfg.limits.maxCacheEntries) :
    (cleanupOldEntries cfg w).store = w.store ∧
    (cleanupOldEntries cfg w).clocks = w.clocks ∧
    (cleanupOldEntries cfg w).faults = [] := by
  have hfil : w.store.filter (fun p => jsStartsWith p.1 "cache_") = w.store :=
    List.filter_eq_self.mpr hpre
  have hlen2 : ((getAllCacheEntries w).1).length ≤ cfg.limits.maxCacheEntries := by
    rw [getAllCacheEntries_fst_of_no_fault w (by simp [hf]), hfil]
    calc (sortEntries byTsDesc (w.store.map (fun p => p.2))).length
        = (w.store.map (fun p => p.2)).length := (sortEntries_perm _ _).length_eq
      _ = w.store.length := List.length_map _ _
      _ ≤ _ := hlen
  simp only [cleanupOldEntries]
  rw [if_pos hlen2, getAllCacheEntries_snd]
  simp [hf]

theorem cleanup_proj_evict (cfg : Config) (w : World)
    (hpre : ∀ p ∈ w.store, jsStartsWith p.1 "cache_" = true)
    (hid : ∀ p ∈ w.store, p.2.id = p.1)
    (hkeys : (w.store.map Prod.fst).Nodup)
    (hasc : (w.store.map (fun p => p.2.timestamp)).Pairwise (· < ·))
    (hf : w.faults = [])
    (hlen : w.store.length = cfg.limits.maxCacheEntries + 1) :
    (cleanupOldEntries cfg w).store = w.store.drop 1 ∧
    (cleanupOldEntries cfg w).clocks = w.clocks ∧
    (cleanupOldEntries cfg w).faults = [] := by
  have hfil : w.store.filter (fun p => jsStartsWith p.1 "cache_") = w.store :=
    List.filter_eq_self.mpr hpre
  have hvals : (w.store.map (fun p => p.2)).Pairwise
      (fun x y => x.timestamp < y.timestamp) := by
    rw [List.pairwise_map]
    exact List.pairwise_map.mp hasc
  have hents : (getAllCacheEntries w).1
      = sortEntries byTsDesc (w.store.map (fun p => p.2)) := by
    rw [getAllCacheEntries_fst_of_no_fault w (by simp [hf]), hfil]
  have hentlen : ((getAllCacheEntries w).1).length = cfg.limits.maxCacheEntries + 1 := by
    rw [hents]
    calc (sortEntries byTsDesc (w.store.map (fun p => p.2))).length
        = (w.store.map (fun p => p.2)).length := (sortEntries_perm _ _).length_eq
      _ = w.store.length := List.length_map _ _
      _ = _ := hlen
  have hnotle : ¬ ((getAllCacheEntries w).1).length ≤ cfg.limits.maxCacheEntries := by
    rw [hentlen]; omega
  have hsorted : sortEntries byTsAsc ((getAllCacheEntries w).1)
      = w.store.map (fun p => p.2) := by
    rw [hents]
    exact sortAsc_eq_of_ascending _ _ (sortEntries_perm _ _) hvals
  -- the store is nonempty; name its head and tail
  rcases hstore : w.store with _ | ⟨p0, s1⟩
  · rw [hstore] at hlen; simp at hlen
  have htake : (sortEntries byTsAsc ((getAllCacheEntries w).1)).take
      (((getAllCacheEntries w).1).length - cfg.limits.maxCacheEntries) = [p0.2] := by
    rw [hsorted, hentlen, hstore]
    have h1 : cfg.limits.maxCacheEntries + 1 - cfg.limits.maxCacheEntries = 1 := by omega
    rw [h1]
    rfl
  have hk0 : p0.2.id = p0.1 := by
    apply hid; rw [hstore]; exact List.mem_cons_self _ _
  have hnotmem : p0.1 ∉ s1.map Prod.fst := by
    have := hkeys
    rw [hstore] at this
    simp only [List.map_cons, List.nodup_cons] at this
    exact this.1
  have hfilter : w.store.filter (fun p => !([p0.2.id].contains p.1)) = s1 := by
    rw [hstore, hk0]
    rw [List.filter_cons]
    have : ¬((!([p0.1].contains p0.1)) = true) := by simp
    rw [if_neg this]
    apply List.filter_eq_self.mpr
    intro q hq
    have hqne : q.1 ≠ p0.1 := by
      intro he
      exact hnotmem (he ▸ List.mem_map_of_mem Prod.fst hq)
    simp [hqne]
  simp only [cleanupOldEntries]
  rw [if_neg hnotle, htake]
  have hga2 : (getAllCacheEntries w).2 = { w with faults := [] } := by
    rw [getAllCacheEntries_snd, hf]
    rfl
  rw [hga2]
  simp only [tickFault, List.headD_nil, List.tail_nil, Bool.false_eq_true, if_false]
  refine ⟨?_, ?_, ?_⟩
  · rw [(updateStats_proj _).1]
    show ((({ w with faults := [] } : World).store).filter
      (fun p => !([p0.2.id].contains p.1))) = List.drop 1 (p0 :: s1)
    show (w.store.filter (fun p => !([p0.2.id].contains p.1))) = List.drop 1 (p0 :: s1)
    rw [hfilter]
    rfl
  · rw [(updateStats_proj _).2.1]
  · rw [(updateStats_proj _).2.2.1]
    rfl


theorem setKey_of_not_mem (k : String) (v : CacheEntry) (s : List (String × CacheEntry))
    (h : k ∉ s.map Prod.fst) : setKey k v s = s ++ [(k, v)] := by
  simp only [setKey]
  rw [if_neg]
  intro hc
  rw [List.any_eq_true] at hc
  obtain ⟨p, hp, he⟩ := hc
  rw [beq_iff_eq] at he
  exact h (he ▸ List.mem_map_of_mem Prod.fst hp)

theorem saveToCache_eq (cfg : Config) (a t : String) (resp : AIResponse) (w : World)
    (hc : cfg.features.enableCaching = true)
    (hf : w.faults = [])
    (hfresh : ("cache_" ++ generateHash t a) ∉ w.store.map Prod.fst) :
    saveToCache cfg a t resp w
      = cleanupOldEntries cfg (updateStats
          { store := w.store ++ [pairOf cfg a resp (t, w.clocks.headD 0)]
          , stats := { w.stats with totalEntries := w.stats.totalEntries + 1 }
          , clocks := w.clocks.tail, faults := [] }) := by
  simp only [saveToCache, hc, Bool.not_true, Bool.false_eq_true, if_false, tickClock,
    tickFault, hf, List.headD_nil, List.tail_nil]
  rw [setKey_of_not_mem _ _ _ hfresh]
  rfl

theorem save_proj_small (cfg : Config) (a t : String) (resp : AIResponse) (w : World)
    (hc : cfg.features.enableCaching = true)
    (hf : w.faults = [])
    (hfresh : ("cache_" ++ generateHash t a) ∉ w.store.map Prod.fst)
    (hpre : ∀ p ∈ w.store, jsStartsWith p.1 "cache_" = true)
    (hlen : w.store.length + 1 ≤ cfg.limits.maxCacheEntries) :
    (saveToCache cfg a t resp w).store
      = w.store ++ [pairOf cfg a resp (t, w.clocks.headD 0)] ∧
    (saveToCache cfg a t resp w).clocks = w.clocks.tail ∧
    (saveToCache cfg a t resp w).faults = [] := by
  rw [saveToCache_eq cfg a t resp w hc hf hfresh]
  have hu := updateStats_proj
    { store := w.store ++ [pairOf cfg a resp (t, w.clocks.headD 0)]
    , stats := { w.stats with totalEntries := w.stats.totalEntries + 1 }
    , clocks := w.clocks.tail, faults := [] }
  have hpre2 : ∀ p ∈ (updateStats
      { store := w.store ++ [pairOf cfg a resp (t, w.clocks.headD 0)]
      , stats := { w.stats with totalEntries := w.stats.totalEntries + 1 }
      , clocks := w.clocks.tail, faults := [] }).store,
      jsStartsWith p.1 "cache_" = true := by
    rw [hu.1]
    intro p hp
    rcases List.mem_append.mp hp with hold | hnew
    · exact hpre p hold
    · rw [List.mem_singleton.mp hnew]
      exact jsStartsWith_cachePre _
  have hcl := cleanup_proj_small cfg _ hpre2 (by rw [hu.2.2.1]; rfl) (by rw [hu.1]; simpa using hlen)
  refine ⟨hcl.1.trans hu.1, hcl.2.1.trans hu.2.1, hcl.2.2⟩

theorem save_proj_evict (cfg : Config) (a t : String) (resp : AIResponse) (w : World)
    (hc : cfg.features.enableCaching = true)
    (hf : w.faults = [])
    (hfresh : ("cache_" ++ generateHash t a) ∉ w.store.map Prod.fst)
    (hpre : ∀ p ∈ w.store, jsStartsWith p.1 "cache_" = true)
    (hid : ∀ p ∈ w.store, p.2.id = p.1)
    (hkeys : (w.store.map Prod.fst).Nodup)
    (hasc : ((w.store.map fun p => p.2.timestamp) ++ [w.clocks.headD 0]).Pairwise (· < ·))
    (hlen : w.store.length = cfg.limits.maxCacheEntries) :
    (saveToCache cfg a t resp w).store
      = (w.store ++ [pairOf cfg a resp (t, w.clocks.headD 0)]).drop 1 ∧
    (saveToCache cfg a t resp w).clocks = w.clocks.tail ∧
    (saveToCache cfg a t resp w).faults = [] := by
  rw [saveToCache_eq cfg a t resp w hc hf hfresh]
  have hu := updateStats_proj
    { store := w.store ++ [pairOf cfg a resp (t, w.clocks.headD 0)]
    , stats := { w.stats with totalEntries := w.stats.totalEntries + 1 }
    , clocks := w.clocks.tail, faults := [] }
  have hst := hu.1
  have hpre2 : ∀ p ∈ (updateStats
      { store := w.store ++ [pairOf cfg a resp (t, w.clocks.headD 0)]
      , stats := { w.stats with totalEntries := w.stats.totalEntries + 1 }
      , clocks := w.clocks.tail, faults := [] }).store,
      jsStartsWith p.1 "cache_" = true := by
    rw [hst]
    intro p hp
    rcases List.mem_append.mp hp with hold | hnew
    · exact hpre p hold
    · rw [List.mem_singleton.mp hnew]
      exact jsStartsWith_cachePre _
  have hid2 : ∀ p ∈ (updateStats
      { store := w.store ++ [pairOf cfg a resp (t, w.clocks.headD 0)]
      , stats := { w.stats with totalEntries := w.stats.totalEntries + 1 }
      , clocks := w.clocks.tail, faults := [] }).store, p.2.id = p.1 := by
    rw [hst]
    intro p hp
    rcases List.mem_append.mp hp with hold | hnew
    · exact hid p hold
    · rw [List.mem_singleton.mp hnew]
      rfl
  have hkeys2 : (((updateStats
      { store := w.store ++ [pairOf cfg a resp (t, w.clocks.headD 0)]
      , stats := { w.stats with totalEntries := w.stats.totalEntries + 1 }
      , clocks := w.clocks.tail, faults := [] }).store).map Prod.fst).Nodup := by
    rw [hst, List.map_append]
    rw [List.nodup_append]
    exact ⟨hkeys, List.nodup_singleton _, by simpa [List.disjoint_singleton] using hfresh⟩
  have hasc2 : (((updateStats
      { store := w.store ++ [pairOf cfg a resp (t, w.clocks.headD 0)]
      , stats := { w.stats with totalEntries := w.stats.totalEntries + 1 }
      , clocks := w.clocks.tail, faults := [] }).store).map
        (fun p => p.2.timestamp)).Pairwise (· < ·) := by
    rw [hst, List.map_append]
    exact hasc
  have hcl := cleanup_proj_evict cfg _ hpre2 hid2 hkeys2 hasc2 (by rw [hu.2.2.1]; rfl)
    (by rw [hst]; simp [hlen])
  refine ⟨?_, hcl.2.1.trans hu.2.1, hcl.2.2⟩
  rw [hcl.1, hst]


theorem insertAll_inv (cfg : Config) (a : String) (resp : AIResponse)
    (hc : cfg.features.enableCaching = true) :
    ∀ (texts : List String) (ts rest : List Int) (s : List (String × CacheEntry))
      (stats : CacheStats),
    ts.length = texts.length →
    s.length ≤ cfg.limits.maxCacheEntries →
    ((s.map Prod.fst) ++ texts.map (fun x => "cache_" ++ generateHash x a)).Nodup →
    ((s.map fun p => p.2.timestamp) ++ ts).Pairwise (· < ·) →
    (∀ p ∈ s, p.2.id = p.1) →
    (∀ p ∈ s, jsStartsWith p.1 "cache_" = true) →
    (insertAll cfg a resp texts ⟨s, stats, ts ++ rest, []⟩).store
      = (s ++ (texts.zip ts).map (pairOf cfg a resp)).drop
          (s.length + texts.length - cfg.limits.maxCacheEntries) ∧
    (insertAll cfg a resp texts ⟨s, stats, ts ++ rest, []⟩).clocks = rest ∧
    (insertAll cfg a resp texts ⟨s, stats, ts ++ rest, []⟩).faults = [] := by
  intro texts
  induction texts with
  | nil =>
    intro ts rest s stats hts hlen hnd hasc hid hpre
    have hts0 : ts = [] := List.length_eq_zero.mp (by simpa using hts)
    subst hts0
    have hdrop : s.length - cfg.limits.maxCacheEntries = 0 := by omega
    simp [insertAll, hdrop]
  | cons t texts2 ih =>
    intro ts rest s stats hts hlen hnd hasc hid hpre
    rcases ts with _ | ⟨t0, ts0⟩
    · simp at hts
    have hts2 : ts0.length = texts2.length := by simpa using hts
    have hdisj := (List.nodup_append.mp hnd).2.2
    have hkeysS : (s.map Prod.fst).Nodup := (List.nodup_append.mp hnd).1
    have hfresh : ("cache_" ++ generateHash t a) ∉ s.map Prod.fst := by
      intro hmem
      exact (hdisj hmem) (by simp)
    have hstep : insertAll cfg a resp (t :: texts2) ⟨s, stats, (t0 :: ts0) ++ rest, []⟩
        = insertAll cfg a resp texts2
            (saveToCache cfg a t resp ⟨s, stats, (t0 :: ts0) ++ rest, []⟩) := rfl
    set w0 : World := ⟨s, stats, (t0 :: ts0) ++ rest, []⟩ with hw0
    by_cases hcase : s.length + 1 ≤ cfg.limits.maxCacheEntries
    · have hsp := save_proj_small cfg a t resp w0 hc rfl hfresh hpre hcase
      have hwrec : saveToCache cfg a t resp w0
          = ⟨s ++ [pairOf cfg a resp (t, t0)], (saveToCache cfg a t resp w0).stats,
             ts0 ++ rest, []⟩ := by
        calc saveToCache cfg a t resp w0
            = ⟨(saveToCache cfg a t resp w0).store, (saveToCache cfg a t resp w0).stats,
               (saveToCache cfg a t resp w0).clocks, (saveToCache cfg a t resp w0).faults⟩ := rfl
          _ = _ := by
                rw [hsp.1, hsp.2.1, hsp.2.2]
                rfl
      have hnd2 : (((s ++ [pairOf cfg a resp (t, t0)]).map Prod.fst)
          ++ texts2.map (fun x => "cache_" ++ generateHash x a)).Nodup := by
        have : (s.map Prod.fst ++ ["cache_" ++ generateHash t a])
            ++ texts2.map (fun x => "cache_" ++ generateHash x a)
            = s.map Prod.fst ++ (t :: texts2).map (fun x => "cache_" ++ generateHash x a) := by
          simp
        rw [List.map_append]
        show ((s.map Prod.fst ++ ["cache_" ++ generateHash t a]) ++ _).Nodup
        rw [this]
        exact hnd
      have hasc2 : (((s ++ [pairOf cfg a resp (t, t0)]).map fun p => p.2.timestamp)
          ++ ts0).Pairwise (· < ·) := by
        rw [List.map_append]
        have : (List.map (fun p => p.2.timestamp) s ++ [t0]) ++ ts0
            = List.map (fun p => p.2.timestamp) s ++ (t0 :: ts0) := by
          simp
        show ((List.map (fun p => p.2.timestamp) s ++ [t0]) ++ ts0).Pairwise (· < ·)
        rw [this]
        exact hasc
      have hid2 : ∀ p ∈ s ++ [pairOf cfg a resp (t, t0)], p.2.id = p.1 := by
        intro p hp
        rcases List.mem_append.mp hp with hold | hnew
        · exact hid p hold
        · rw [List.mem_singleton.mp hnew]; rfl
      have hpre2 : ∀ p ∈ s ++ [pairOf cfg a resp (t, t0)], jsStartsWith p.1 "cache_" = true := by
        intro p hp
        rcases List.mem_append.mp hp with hold | hnew
        · exact hpre p hold
        · rw [List.mem_singleton.mp hnew]; exact jsStartsWith_cachePre _
      have hih := ih ts0 rest (s ++ [pairOf cfg a resp (t, t0)])
        ((saveToCache cfg a t resp w0).stats) hts2
        (by rw [List.length_append]; simpa using hcase) hnd2 hasc2 hid2 hpre2
      rw [hstep, hwrec]
      refine ⟨?_, hih.2.1, hih.2.2⟩
      rw [hih.1]
      have hlist : (s ++ [pairOf cfg a resp (t, t0)])
          ++ (texts2.zip ts0).map (pairOf cfg a resp)
          = s ++ ((t :: texts2).zip (t0 :: ts0)).map (pairOf cfg a resp) := by
        simp
      have hidx : (s ++ [pairOf cfg a resp (t, t0)]).length + texts2.length
          - cfg.limits.maxCacheEntries
          = s.length + (t :: texts2).length - cfg.limits.maxCacheEntries := by
        rw [List.length_append]
        simp only [List.length_cons, List.length_nil]
        omega
      rw [hlist, hidx]
    · have hsl : s.length = cfg.limits.maxCacheEntries := by omega
      have hascE : ((w0.store.map fun p => p.2.timestamp)
          ++ [w0.clocks.headD 0]).Pairwise (· < ·) := by
        refine List.Pairwise.sublist ?_ hasc
        exact List.Sublist.append (List.Sublist.refl _) (List.Sublist.cons₂ t0 (List.nil_sublist ts0))
      have hsp := save_proj_evict cfg a t resp w0 hc rfl hfresh hpre hid hkeysS hascE hsl
      have hwrec : saveToCache cfg a t resp w0
          = ⟨(s ++ [pairOf cfg a resp (t, t0)]).drop 1, (saveToCache cfg a t resp w0).stats,
             ts0 ++ rest, []⟩ := by
        calc saveToCache cfg a t resp w0
            = ⟨(saveToCache cfg a t resp w0).store, (saveToCache cfg a t resp w0).stats,
               (saveToCache cfg a t resp w0).clocks, (saveToCache cfg a t resp w0).faults⟩ := rfl
          _ = _ := by
                rw [hsp.1, hsp.2.1, hsp.2.2]
                rfl
      have hsub : ((s ++ [pairOf cfg a resp (t, t0)]).drop 1).Sublist
          (s ++ [pairOf cfg a resp (t, t0)]) := List.drop_sublist 1 _
      have hnd2 : ((((s ++ [pairOf cfg a resp (t, t0)]).drop 1).map Prod.fst)
          ++ texts2.map (fun x => "cache_" ++ generateHash x a)).Nodup := by
        have hbig : (((s ++ [pairOf cfg a resp (t, t0)]).map Prod.fst)
            ++ texts2.map (fun x => "cache_" ++ generateHash x a)).Nodup := by
          have : (s.map Prod.fst ++ ["cache_" ++ generateHash t a])
              ++ texts2.map (fun x => "cache_" ++ generateHash x a)
              = s.map Prod.fst ++ (t :: texts2).map (fun x => "cache_" ++ generateHash x a) := by
            simp
          rw [List.map_append]
          show ((s.map Prod.fst ++ ["cache_" ++ generateHash t a]) ++ _).Nodup
          rw [this]
          exact hnd
        refine List.Nodup.sublist ?_ hbig
        exact List.Sublist.append (List.Sublist.map _ hsub) (List.Sublist.refl _)
      have hasc2 : ((((s ++ [pairOf cfg a resp (t, t0)]).drop 1).map fun p => p.2.timestamp)
          ++ ts0).Pairwise (· < ·) := by
        have hbig : (((s ++ [pairOf cfg a resp (t, t0)]).map fun p => p.2.timestamp)
            ++ ts0).Pairwise (· < ·) := by
          rw [List.map_append]
          have : (List.map (fun p => p.2.timestamp) s ++ [t0]) ++ ts0
              = List.map (fun p => p.2.timestamp) s ++ (t0 :: ts0) := by
            simp
          show ((List.map (fun p => p.2.timestamp) s ++ [t0]) ++ ts0).Pairwise (· < ·)
          rw [this]
          exact hasc
        refine List.Pairwise.sublist ?_ hbig
        exact List.Sublist.append (List.Sublist.map _ hsub) (List.Sublist.refl _)
      have hid2 : ∀ p ∈ (s ++ [pairOf cfg a resp (t, t0)]).drop 1, p.2.id = p.1 := by
        intro p hp
        rcases List.mem_append.mp (hsub.subset hp) with hold | hnew
        · exact hid p hold
        · rw [List.mem_singleton.mp hnew]; rfl
      have hpre2 : ∀ p ∈ (s ++ [pairOf cfg a resp (t, t0)]).drop 1,
          jsStartsWith p.1 "cache_" = true := by
        intro p hp
        rcases List.mem_append.mp (hsub.subset hp) with hold | hnew
        · exact hpre p hold
        · rw [List.mem_singleton.mp hnew]; exact jsStartsWith_cachePre _
      have hlen2 : ((s ++ [pairOf cfg a resp (t, t0)]).drop 1).length
          ≤ cfg.limits.maxCacheEntries := by
        rw [List.length_drop, List.length_append]
        simp [hsl]
      have hih := ih ts0 rest ((s ++ [pairOf cfg a resp (t, t0)]).drop 1)
        ((saveToCache cfg a t resp w0).stats) hts2 hlen2 hnd2 hasc2 hid2 hpre2
      rw [hstep, hwrec]
      refine ⟨?_, hih.2.1, hih.2.2⟩
      rw [hih.1]
      have hdlen : ((s ++ [pairOf cfg a resp (t, t0)]).drop 1).length = s.length := by
        rw [List.length_drop, List.length_append]
        simp
      rw [hdlen]
      have h1le : 1 ≤ (s ++ [pairOf cfg a resp (t, t0)]).length := by
        rw [List.length_append]
        simp
      rw [← List.drop_append_of_le_length h1le]
      rw [List.drop_drop]
      have hlist : (s ++ [pairOf cfg a resp (t, t0)])
          ++ (texts2.zip ts0).map (pairOf cfg a resp)
          = s ++ ((t :: texts2).zip (t0 :: ts0)).map (pairOf cfg a resp) := by
        simp
      have hidx : 1 + (s.length + texts2.length - cfg.limits.maxCacheEntries)
          = s.length + (t :: texts2).length - cfg.limits.maxCacheEntries := by
        simp only [List.length_cons]
        omega
      rw [hlist, hidx]


/-- C6: inserting a sequence of entries with pairwise-distinct fingerprints
at strictly increasing store times into an initially empty cache configured
with `maxCacheEntries = N` maintains the bound — after every store
operation (with its cleanup) at most N entries remain — and after N+1
insertions exactly N remain, namely the N most recently inserted (the
inserted sequence minus its oldest element), so eviction is oldest-first
by timestamp and removes no more than necessary. -/
theorem c6_eviction_bound (cfg : Config) (a : String) (resp : AIResponse)
    (texts : List String) (ts rest : List Int) (stats : CacheStats)
    (hc : cfg.features.enableCaching = true)
    (hcount : texts.length = cfg.limits.maxCacheEntries + 1)
    (hts : ts.length = texts.length)
    (hnd : (texts.map (fun x => "cache_" ++ generateHash x a)).Nodup)
    (hasc : ts.Pairwise (· < ·)) :
    (insertAll cfg a resp texts ⟨[], stats, ts ++ rest, []⟩).store
      = ((texts.zip ts).map (pairOf cfg a resp)).drop 1 ∧
    (insertAll cfg a resp texts ⟨[], stats, ts ++ rest, []⟩).store.length
      = cfg.limits.maxCacheEntries ∧
    (∀ k, k ≤ texts.length →
      (insertAll cfg a resp (texts.take k) ⟨[], stats, ts ++ rest, []⟩).store.length
        ≤ cfg.limits.maxCacheEntries) := by
  have hmain := insertAll_inv cfg a resp hc texts ts rest [] stats hts (by simp)
    (by simpa using hnd) (by simpa using hasc) (by simp) (by simp)
  have hzlen : ((texts.zip ts).map (pairOf cfg a resp)).length = texts.length := by
    rw [List.length_map, List.length_zip, hts]
    omega
  have hone : (([] : List (String × CacheEntry)).length + texts.length
      - cfg.limits.maxCacheEntries) = 1 := by
    simp only [List.length_nil]
    omega
  have hstore : (insertAll cfg a resp texts ⟨[], stats, ts ++ rest, []⟩).store
      = ((texts.zip ts).map (pairOf cfg a resp)).drop 1 := by
    rw [hmain.1, hone, List.nil_append]
  refine ⟨hstore, ?_, ?_⟩
  · rw [hstore, List.length_drop, hzlen, hcount]
    omega
  · intro k hk
    have hclocks : (⟨[], stats, ts ++ rest, []⟩ : World)
        = ⟨[], stats, ts.take k ++ (ts.drop k ++ rest), []⟩ := by
      rw [← List.append_assoc, List.take_append_drop]
    have htklen : (ts.take k).length = (texts.take k).length := by
      simp [List.length_take, hts]
    have hndk : ((texts.take k).map (fun x => "cache_" ++ generateHash x a)).Nodup := by
      rw [List.map_take]
      exact hnd.sublist (List.take_sublist k _)
    have hasck : (ts.take k).Pairwise ((· < ·) : Int → Int → Prop) :=
      List.Pairwise.sublist (List.take_sublist k ts) hasc
    have hk2 := insertAll_inv cfg a resp hc (texts.take k) (ts.take k)
      (ts.drop k ++ rest) [] stats htklen (by simp) (by simpa using hndk)
      (by simpa using hasck) (by simp) (by simp)
    rw [hclocks, hk2.1]
    rw [List.nil_append, List.length_drop, List.length_map, List.length_zip]
    simp only [List.length_nil, List.length_take]
    omega


/-- Witness for `c6_eviction_bound`: scenario 1 of §8 — `maxCacheEntries=2`,
inserting A, B, C leaves exactly B and C. -/
theorem c6_eviction_bound_witness :
    (insertAll cfgMax2 "summarize" sampleResponse ["inputA", "inputB", "inputC"]
      ⟨[], zeroStats, [1, 2, 3], []⟩).store
      = (((["inputA", "inputB", "inputC"].zip [1, 2, 3]).map
          (pairOf cfgMax2 "summarize" sampleResponse)).drop 1) ∧
    (insertAll cfgMax2 "summarize" sampleResponse ["inputA", "inputB", "inputC"]
      ⟨[], zeroStats, [1, 2, 3], []⟩).store.length = cfgMax2.limits.maxCacheEntries := by
  have h := c6_eviction_bound cfgMax2 "summarize" sampleResponse
    ["inputA", "inputB", "inputC"] [1, 2, 3] [] zeroStats rfl (by decide) (by decide)
    (by decide) (by decide)
  exact ⟨h.1, h.2.1⟩

end MuseFlow
